import Mathlib

/-!
# Verification of the OpenTrustProtocol JavaScript SDK core

A shallow embedding of the core of the opentrustprotocol-js repository:
the NeutrosophicJudgment data model (src/judgment.ts), the three fusion
operators (src/fusion.ts), the conformance-seal subsystem
(src/conformance.ts) and the judgment-id subsystem (src/judgment-id.ts),
together with theorems settling the frozen claims about them.

Modelling conventions:
* JavaScript 64-bit floats are modelled as rationals; the arithmetic the
  code performs (sums, products, divisions, comparisons) is exact here.
* Thrown exceptions are modelled with Except: the generic JS Error class
  becomes Err.error and the ConformanceError class becomes
  Err.conformance.
* Wall-clock timestamps (new Date().toISOString()) are passed in as an
  explicit string argument named now.
* The free-form metadata bags (Record of string to any) are modelled by
  association lists over a small value type covering every shape the core
  actually stores (strings, numbers, booleans, null, arrays of numbers).
* SHA-256 (from the Node crypto library) is implemented concretely below
  over UTF-8 bytes, words as naturals reduced mod 2 ^ 32.
* JSON.stringify on the canonical objects is implemented concretely;
  JavaScript float formatting is replaced by an injective rendering of
  rationals (numerator, slash, denominator), which preserves exactly what
  the claims depend on: equal values serialize equally and distinct
  values serialize distinctly.
* localeCompare on source ids is modelled as the lexicographic order on
  strings, and Array.prototype.sort (stable in modern engines) as a
  stable insertion sort.
-/

namespace OTP

/- The core Rat operations are marked irreducible; making them
semireducible again lets decidable facts about concrete rationals be
settled by reduction. -/
set_option allowUnsafeReducibility true

attribute [local semireducible] Rat.add Rat.sub Rat.mul Rat.div Rat.neg
  Rat.inv Rat.blt Rat.normalize Rat.maybeNormalize

/-- Value type for the metadata bags the core stores in provenance
entries: every metadata object the embedded code builds uses only
strings, numbers, booleans, null and arrays of numbers as values. -/
inductive MetaValue where
  | mstr (s : String)
  | mnum (q : ℚ)
  | mbool (b : Bool)
  | mnull
  | mnumArr (qs : List ℚ)

deriving DecidableEq

/-- A metadata bag: an insertion-ordered association list, mirroring a JS
object whose string keys keep insertion order. -/
abbrev Metadata := List (String × MetaValue)

/-- ProvenanceEntry from src/judgment.ts, extended with the two
recognized optional fields the id and seal subsystems attach
(judgment_id and conformance_seal). An absent field is none; note the JS
code tests these fields for truthiness, so the empty string behaves like
an absent field there. -/
structure ProvenanceEntry where
  source_id : String
  timestamp : String
  description : Option String := none
  metadata : Option Metadata := none
  judgment_id : Option String := none
  conformance_seal : Option String := none

deriving DecidableEq

/-- The NeutrosophicJudgment value: degrees T, I, F and the provenance
chain. The raw structure carries no invariant; the validating
constructor below is the only way the embedded code builds one. -/
structure NeutrosophicJudgment where
  T : ℚ
  I : ℚ
  F : ℚ
  provenance_chain : List ProvenanceEntry

deriving DecidableEq

/-- The two kinds of exception the core throws: the generic JS Error
(validation and input failures) and the ConformanceError class. -/
inductive Err where
  | error (msg : String)
  | conformance (msg : String)

deriving DecidableEq

deriving instance DecidableEq for Except

/-- The message carried by either error kind. -/
def Err.message : Err → String
  | .error m => m
  | .conformance m => m

/-- The per-entry loop of NeutrosophicJudgment.validate: each entry must
have a truthy (non-empty) source_id and timestamp, checked in order. -/
def validateChainEntries : List ProvenanceEntry → Except Err Unit
  | [] => .ok ()
  | e :: rest =>
    if e.source_id = "" then .error (.error "Provenance entry must have source_id")
    else if e.timestamp = "" then .error (.error "Provenance entry must have timestamp")
    else validateChainEntries rest

/-- NeutrosophicJudgment.validate from src/judgment.ts: range checks on
each degree, the conservation constraint, non-emptiness of the chain,
then the per-entry checks. -/
def validateJudgment (T I F : ℚ) (chain : List ProvenanceEntry) : Except Err Unit :=
  if T < 0 ∨ T > 1 then .error (.error "T value must be between 0 and 1")
  else if I < 0 ∨ I > 1 then .error (.error "I value must be between 0 and 1")
  else if F < 0 ∨ F > 1 then .error (.error "F value must be between 0 and 1")
  else if T + I + F > 1 then .error (.error "Conservation constraint violated: T + I + F > 1.0")
  else if chain = [] then .error (.error "Provenance chain cannot be empty")
  else validateChainEntries chain

/-- The NeutrosophicJudgment constructor: validate, then freeze the
fields. Freezing a copy of the chain is the identity in this value
semantics. -/
def NeutrosophicJudgment.construct (T I F : ℚ) (chain : List ProvenanceEntry) :
    Except Err NeutrosophicJudgment := do
  validateJudgment T I F chain
  .ok ⟨T, I, F, chain⟩

/-- The section-3 invariants of the specification, read off the
validation code: degrees in the unit interval, conservation, a non-empty
chain, and truthy source_id and timestamp on every entry. -/
def ValidParams (T I F : ℚ) (chain : List ProvenanceEntry) : Prop :=
  0 ≤ T ∧ T ≤ 1 ∧ 0 ≤ I ∧ I ≤ 1 ∧ 0 ≤ F ∧ F ≤ 1 ∧ T + I + F ≤ 1 ∧
    chain ≠ [] ∧ ∀ e ∈ chain, e.source_id ≠ "" ∧ e.timestamp ≠ ""

instance (T I F : ℚ) (chain : List ProvenanceEntry) : Decidable (ValidParams T I F chain) := by
  unfold ValidParams; infer_instance

/-- A judgment value that would pass the constructor. Every judgment the
running system holds satisfies this, since the constructor is the only
producer. -/
def Valid (j : NeutrosophicJudgment) : Prop :=
  ValidParams j.T j.I j.F j.provenance_chain

instance (j : NeutrosophicJudgment) : Decidable (Valid j) := by
  unfold Valid; infer_instance

/-- Truncation to a 32-bit word. -/
def w32 (n : Nat) : Nat := n % 4294967296

/-- Right rotation of a 32-bit word by n places. -/
def rotr32 (x n : Nat) : Nat := w32 ((x >>> n) + (x % 2 ^ n) * 2 ^ (32 - n))

/-- Bitwise complement within 32 bits (arguments are kept below 2 ^ 32). -/
def not32 (x : Nat) : Nat := 4294967295 - x

def shaCh (x y z : Nat) : Nat := (x &&& y) ^^^ (not32 x &&& z)

def shaMaj (x y z : Nat) : Nat := (x &&& y) ^^^ (x &&& z) ^^^ (y &&& z)

def bSig0 (x : Nat) : Nat := rotr32 x 2 ^^^ rotr32 x 13 ^^^ rotr32 x 22

def bSig1 (x : Nat) : Nat := rotr32 x 6 ^^^ rotr32 x 11 ^^^ rotr32 x 25

def sSig0 (x : Nat) : Nat := rotr32 x 7 ^^^ rotr32 x 18 ^^^ (x >>> 3)

def sSig1 (x : Nat) : Nat := rotr32 x 17 ^^^ rotr32 x 19 ^^^ (x >>> 10)

/-- The SHA-256 round constants. -/
def shaK : List Nat :=
  [1116352408, 1899447441, 3049323471, 3921009573, 961987163, 1508970993, 2453635748, 2870763221,
   3624381080, 310598401, 607225278, 1426881987, 1925078388, 2162078206, 2614888103, 3248222580,
   3835390401, 4022224774, 264347078, 604807628, 770255983, 1249150122, 1555081692, 1996064986,
   2554220882, 2821834349, 2952996808, 3210313671, 3336571891, 3584528711, 113926993, 338241895,
   666307205, 773529912, 1294757372, 1396182291, 1695183700, 1986661051, 2177026350, 2456956037,
   2730485921, 2820302411, 3259730800, 3345764771, 3516065817, 3600352804, 4094571909, 275423344,
   430227734, 506948616, 659060556, 883997877, 958139571, 1322822218, 1537002063, 1747873779,
   1955562222, 2024104815, 2227730452, 2361852424, 2428436474, 2756734187, 3204031479, 3329325298]

/-- The SHA-256 initial hash words. -/
def shaH0 : List Nat :=
  [1779033703, 3144134277, 1013904242, 2773480762, 1359893119, 2600822924, 528734635, 1541459225]

/-- UTF-8 encoding of one scalar value, as its byte values. -/
def utf8EncodeChar (c : Char) : List Nat :=
  let n := c.toNat
  if n < 128 then [n]
  else if n < 2048 then [192 + n / 64, 128 + n % 64]
  else if n < 65536 then [224 + n / 4096, 128 + n / 64 % 64, 128 + n % 64]
  else [240 + n / 262144, 128 + n / 4096 % 64, 128 + n / 64 % 64, 128 + n % 64]

/-- UTF-8 encoding of a string, as the list of its byte values. -/
def utf8Encode (s : String) : List Nat := (s.toList.map utf8EncodeChar).flatten

/-- SHA-256 padding: a 0x80 byte, zeros to 56 mod 64, then the bit length
as eight big-endian bytes. -/
def sha256Pad (msg : List Nat) : List Nat :=
  let L := msg.length
  let z := (119 - L % 64) % 64
  let bits := 8 * L
  msg ++ 128 :: List.replicate z 0 ++
    [bits / 72057594037927936 % 256, bits / 281474976710656 % 256,
     bits / 1099511627776 % 256, bits / 4294967296 % 256,
     bits / 16777216 % 256, bits / 65536 % 256, bits / 256 % 256, bits % 256]

/-- Split a byte list into 64-byte blocks. The fuel argument (any bound
on the number of blocks, here the list length) keeps the recursion
structural so that the definition computes by reduction. -/
def chunk64Aux : Nat → List Nat → List (List Nat)
  | 0, _ => []
  | _, [] => []
  | fuel + 1, x :: rest => ((x :: rest).take 64) :: chunk64Aux fuel ((x :: rest).drop 64)

def chunk64 (l : List Nat) : List (List Nat) := chunk64Aux l.length l

/-- Big-endian assembly of 4-byte groups into 32-bit words. -/
def bytesToWords : List Nat → List Nat
  | b0 :: b1 :: b2 :: b3 :: rest =>
    (((b0 * 256 + b1) * 256 + b2) * 256 + b3) :: bytesToWords rest
  | _ => []

/-- One extension step of the SHA-256 message schedule: ws holds the
words so far, and the new word combines the ones 2, 7, 15 and 16 back. -/
def scheduleStep (ws : List Nat) : Nat :=
  w32 (sSig1 (ws.getD (ws.length - 2) 0) + ws.getD (ws.length - 7) 0 +
    sSig0 (ws.getD (ws.length - 15) 0) + ws.getD (ws.length - 16) 0)

def extendSchedule : List Nat → Nat → List Nat
  | ws, 0 => ws
  | ws, k + 1 => extendSchedule (ws ++ [scheduleStep ws]) k

/-- The eight SHA-256 working variables. -/
structure Sha256State where
  sa : Nat
  sb : Nat
  sc : Nat
  sd : Nat
  se : Nat
  sf : Nat
  sg : Nat
  sh : Nat

def sha256Round (ws : List Nat) (st : Sha256State) (t : Nat) : Sha256State :=
  let t1 := w32 (st.sh + bSig1 st.se + shaCh st.se st.sf st.sg + shaK.getD t 0 + ws.getD t 0)
  let t2 := w32 (bSig0 st.sa + shaMaj st.sa st.sb st.sc)
  ⟨w32 (t1 + t2), st.sa, st.sb, st.sc, w32 (st.sd + t1), st.se, st.sf, st.sg⟩

def compressBlock (h : List Nat) (block : List Nat) : List Nat :=
  let ws := extendSchedule (bytesToWords block) 48
  let init : Sha256State :=
    ⟨h.getD 0 0, h.getD 1 0, h.getD 2 0, h.getD 3 0,
     h.getD 4 0, h.getD 5 0, h.getD 6 0, h.getD 7 0⟩
  let fin := (List.range 64).foldl (sha256Round ws) init
  [w32 (h.getD 0 0 + fin.sa), w32 (h.getD 1 0 + fin.sb), w32 (h.getD 2 0 + fin.sc),
   w32 (h.getD 3 0 + fin.sd), w32 (h.getD 4 0 + fin.se), w32 (h.getD 5 0 + fin.sf),
   w32 (h.getD 6 0 + fin.sg), w32 (h.getD 7 0 + fin.sh)]

/-- The eight words of the SHA-256 digest of a byte list. -/
def sha256Words (msg : List Nat) : List Nat :=
  (chunk64 (sha256Pad msg)).foldl compressBlock shaH0

def hexDigit (n : Nat) : Char := if n < 10 then Char.ofNat (48 + n) else Char.ofNat (87 + n)

def toHex8 (x : Nat) : String :=
  String.mk [hexDigit (x / 268435456 % 16), hexDigit (x / 16777216 % 16),
    hexDigit (x / 1048576 % 16), hexDigit (x / 65536 % 16), hexDigit (x / 4096 % 16),
    hexDigit (x / 256 % 16), hexDigit (x / 16 % 16), hexDigit (x % 16)]

/-- The lowercase hex SHA-256 digest of the UTF-8 bytes of a string:
the model of createHash applied over utf8, from the Node crypto library. -/
def sha256hex (s : String) : String :=
  String.join ((sha256Words (utf8Encode s)).map toHex8)

/-- JSON string escaping as JSON.stringify performs it. -/
def escapeChar (c : Char) : String :=
  if c = '"' then "\\\""
  else if c = '\\' then "\\\\"
  else if c = '\n' then "\\n"
  else if c = '\r' then "\\r"
  else if c = '\t' then "\\t"
  else if c.toNat = 8 then "\\b"
  else if c.toNat = 12 then "\\f"
  else if c.toNat < 32 then "\\u00" ++ String.mk [hexDigit (c.toNat / 16), hexDigit (c.toNat % 16)]
  else String.singleton c

/-- A JSON string literal. -/
def jstr (s : String) : String := "\"" ++ String.join (s.toList.map escapeChar) ++ "\""

/-- Rendering of a JS number inside canonical JSON. JavaScript emits the
shortest decimal for the float; the claims depend only on the rendering
being a function separating distinct values, so the model renders the
reduced fraction, which is injective as well. -/
def numRepr (q : ℚ) : String := toString q.num ++ "/" ++ toString q.den

def serializeMetaValue : MetaValue → String
  | .mstr s => jstr s
  | .mnum q => numRepr q
  | .mbool b => if b then "true" else "false"
  | .mnull => "null"
  | .mnumArr qs => "[" ++ String.intercalate "," (qs.map numRepr) ++ "]"

def serializeMetadata (m : Metadata) : String :=
  "\x7b" ++
    String.intercalate "," (m.map (fun kv => jstr kv.1 ++ ":" ++ serializeMetaValue kv.2)) ++
    "\x7d"

/-- The canonical form of a provenance entry shared by the seal and the
id subsystems: source_id and timestamp always, description and metadata
when present, judgment_id and conformance_seal always dropped.
(JSON.stringify omits keys holding undefined, so copying a possibly
undefined field and conditionally adding it serialize identically.) -/
structure CanonicalEntry where
  source_id : String
  timestamp : String
  description : Option String
  metadata : Option Metadata

deriving DecidableEq

def canonicalizeEntry (e : ProvenanceEntry) : CanonicalEntry :=
  ⟨e.source_id, e.timestamp, e.description, e.metadata⟩

/-- The canonical form of a judgment: the three degrees and the
canonicalized chain, keys in the insertion order T, I, F,
provenance_chain. -/
structure CanonicalJudgment where
  T : ℚ
  I : ℚ
  F : ℚ
  provenance_chain : List CanonicalEntry

deriving DecidableEq

def canonicalizeJudgment (j : NeutrosophicJudgment) : CanonicalJudgment :=
  ⟨j.T, j.I, j.F, j.provenance_chain.map canonicalizeEntry⟩

def serializeEntry (e : CanonicalEntry) : String :=
  "\x7b" ++ "\"source_id\":" ++ jstr e.source_id ++ ",\"timestamp\":" ++ jstr e.timestamp ++
    (match e.description with
      | none => ""
      | some d => ",\"description\":" ++ jstr d) ++
    (match e.metadata with
      | none => ""
      | some m => ",\"metadata\":" ++ serializeMetadata m) ++
    "\x7d"

def serializeCanonicalJudgment (j : CanonicalJudgment) : String :=
  "\x7b" ++ "\"T\":" ++ numRepr j.T ++ ",\"I\":" ++ numRepr j.I ++ ",\"F\":" ++ numRepr j.F ++
    ",\"provenance_chain\":[" ++
    String.intercalate "," (j.provenance_chain.map serializeEntry) ++ "]\x7d"

/-- A judgment-weight pair, as built in step 2 of generateConformanceSeal. -/
structure JudgmentWeightPair where
  judgment : CanonicalJudgment
  weight : ℚ

deriving DecidableEq

def serializePair (p : JudgmentWeightPair) : String :=
  "\x7b" ++ "\"judgment\":" ++ serializeCanonicalJudgment p.judgment ++
    ",\"weight\":" ++ numRepr p.weight ++ "\x7d"

def serializePairs (ps : List JudgmentWeightPair) : String :=
  "[" ++ String.intercalate "," (ps.map serializePair) ++ "]"

/-- The source_id of the last provenance entry, empty for an empty
chain: the sort key of step 3 of generateConformanceSeal. -/
def pairKey (p : JudgmentWeightPair) : String :=
  match p.judgment.provenance_chain.getLast? with
  | some e => e.source_id
  | none => ""

/-- Lexicographic comparison of character lists by code point: the
model of the localeCompare total order on source ids. -/
def charListLe : List Char → List Char → Bool
  | [], _ => true
  | _ :: _, [] => false
  | c :: cs, d :: ds =>
    if c.toNat < d.toNat then true
    else if d.toNat < c.toNat then false
    else charListLe cs ds

/-- Lexicographic string comparison over the characters. -/
def strLe (a b : String) : Bool := charListLe a.toList b.toList

/-- Step 3 of generateConformanceSeal: sort the pairs by the source_id
of each judgment's last provenance entry. Array.prototype.sort with a
localeCompare comparator is modelled as a stable insertion sort under
the lexicographic order on strings: ascending, and pairs with equal keys
keep their relative input order. -/
def sortPairs (ps : List JudgmentWeightPair) : List JudgmentWeightPair :=
  List.insertionSort (fun a b => strLe (pairKey a) (pairKey b) = true) ps

def mkPairs (js : List NeutrosophicJudgment) (ws : List ℚ) : List JudgmentWeightPair :=
  (js.zip ws).map (fun p => ⟨canonicalizeJudgment p.1, p.2⟩)

/-- Steps 2-5 of generateConformanceSeal: canonical pairs, canonical
sort, canonical JSON, then the separator and the operator id. -/
def sealInputString (js : List NeutrosophicJudgment) (ws : List ℚ) (operatorId : String) :
    String :=
  serializePairs (sortPairs (mkPairs js ws)) ++ "::" ++ operatorId

/-- generateConformanceSeal from src/conformance.ts. Serialization of
the pair list (step 4) cannot fail in this model, which matches the
code: JSON.stringify only throws on circular structures, which the
canonical pair objects never are. -/
def generateConformanceSeal (js : List NeutrosophicJudgment) (ws : List ℚ)
    (operatorId : String) : Except Err String :=
  if js.length ≠ ws.length then
    .error (.conformance "Invalid input: judgments and weights length mismatch")
  else if js.length = 0 then
    .error (.conformance "Invalid input: judgments list cannot be empty")
  else if operatorId = "" then
    .error (.conformance "Invalid operator ID: empty")
  else
    .ok (sha256hex (sealInputString js ws operatorId))

/-- verifyConformanceSealWithInputs from src/conformance.ts. The stored
seal is read off the last provenance entry with a JS truthiness test, so
an absent seal and an empty-string seal take the same error path. -/
def verifyConformanceSealWithInputs (fused : NeutrosophicJudgment)
    (inputJudgments : List NeutrosophicJudgment) (weights : List ℚ) : Except Err Bool :=
  match fused.provenance_chain.getLast? with
  | none => .error (.conformance "Empty provenance chain")
  | some lastEntry =>
    match lastEntry.conformance_seal with
    | none => .error (.conformance "Missing conformance seal in fused judgment")
    | some storedSeal =>
      if storedSeal = "" then
        .error (.conformance "Missing conformance seal in fused judgment")
      else
        match generateConformanceSeal inputJudgments weights lastEntry.source_id with
        | .error e => .error (.conformance ("Failed to regenerate seal: " ++ e.message))
        | .ok regeneratedSeal => .ok (storedSeal = regeneratedSeal)

/-- createFusionProvenanceEntry from src/conformance.ts: source_id is
the operator id and the conformance seal rides on the entry. -/
def createFusionProvenanceEntry (operatorId timestamp conformanceSeal : String)
    (description : Option String) (metadata : Option Metadata) : ProvenanceEntry :=
  { source_id := operatorId, timestamp := timestamp,
    conformance_seal := some conformanceSeal,
    description := description, metadata := metadata, judgment_id := none }

/-- generateJudgmentId from src/judgment-id.ts: SHA-256 over the
canonical serialization of the judgment, judgment_id and
conformance_seal excluded. -/
def generateJudgmentId (j : NeutrosophicJudgment) : String :=
  sha256hex (serializeCanonicalJudgment (canonicalizeJudgment j))

/-- The JS truthiness test applied to the judgment_id field of an entry
while scanning a chain: present and non-empty. -/
def entryHasJudgmentId (e : ProvenanceEntry) : Bool :=
  match e.judgment_id with
  | some s => s ≠ ""
  | none => false

/-- The trailing entry ensureJudgmentId appends. -/
def judgmentIdEntry (j : NeutrosophicJudgment) (now : String) : ProvenanceEntry :=
  { source_id := "otp-judgment-id-generator", timestamp := now,
    description := some "Automatic Judgment ID generation for Circle of Trust",
    judgment_id := some (generateJudgmentId j),
    metadata := some [("generator", .mstr "otp-javascript-v3.0"),
      ("purpose", .mstr "circle-of-trust-tracking")],
    conformance_seal := none }

/-- ensureJudgmentId from src/judgment-id.ts: return the judgment
unchanged when some entry already carries a truthy judgment_id,
otherwise rebuild it through the constructor with one id entry appended. -/
def ensureJudgmentId (j : NeutrosophicJudgment) (now : String) :
    Except Err NeutrosophicJudgment :=
  if j.provenance_chain.any entryHasJudgmentId then .ok j
  else
    NeutrosophicJudgment.construct j.T j.I j.F
      (j.provenance_chain ++ [judgmentIdEntry j now])

/-- validateInputs from src/fusion.ts. The instanceof and typeof-number
checks hold by typing in this embedding; the empty-list and the
length-mismatch checks remain. -/
def validateFusionInputs (js : List NeutrosophicJudgment) (ws : Option (List ℚ)) :
    Except Err Unit :=
  if js = [] then .error (.error "Judgments list cannot be empty")
  else
    match ws with
    | none => .ok ()
    | some w =>
      if js.length ≠ w.length then
        .error (.error "Judgments list and weights list must have the same length")
      else .ok ()

/-- The try/catch around seal generation in each fusion operator: a
generated seal passes through, a thrown error is logged and replaced by
the empty-string sentinel. -/
def sealOrSentinel : Except Err String → String
  | .ok s => s
  | .error _ => ""

/-- The adjusted weights of the conflict-aware weighted average: each
weight damped by one minus the conflict score T times F of its judgment. -/
def adjustedWeights (js : List NeutrosophicJudgment) (ws : List ℚ) : List ℚ :=
  (js.zip ws).map (fun p => p.2 * (1 - p.1.T * p.1.F))

/-- The metadata object each fusion operator stores on its trailing
provenance entry. -/
def fusionMetadata (operatorName : String) (js : List NeutrosophicJudgment)
    (ws : List ℚ) : Metadata :=
  [("operator", .mstr operatorName), ("input_count", .mnum (js.length : ℚ)),
   ("weights", .mnumArr ws), ("version", .mstr "2.0.0")]

/-- Math.max over a list (the empty case is unreachable behind
validateInputs). -/
def listMax : List ℚ → ℚ
  | [] => 0
  | x :: xs => xs.foldl max x

/-- Math.min over a list (the empty case is unreachable behind
validateInputs). -/
def listMin : List ℚ → ℚ
  | [] => 0
  | x :: xs => xs.foldl min x

/-- conflict_aware_weighted_average from src/fusion.ts. -/
def conflict_aware_weighted_average (js : List NeutrosophicJudgment) (ws : List ℚ)
    (now : String) : Except Err NeutrosophicJudgment := do
  validateFusionInputs js (some ws)
  let adjusted := adjustedWeights js ws
  let totalAdjustedWeight := adjusted.sum
  let n : ℚ := js.length
  let dT := if totalAdjustedWeight = 0 then (js.map (·.T)).sum / n
    else ((js.zip adjusted).map (fun p => p.1.T * p.2)).sum / totalAdjustedWeight
  let dI := if totalAdjustedWeight = 0 then (js.map (·.I)).sum / n
    else ((js.zip adjusted).map (fun p => p.1.I * p.2)).sum / totalAdjustedWeight
  let dF := if totalAdjustedWeight = 0 then (js.map (·.F)).sum / n
    else ((js.zip adjusted).map (fun p => p.1.F * p.2)).sum / totalAdjustedWeight
  let conformanceSeal := sealOrSentinel (generateConformanceSeal js ws "otp-cawa-v1.1")
  let chain := (js.map (·.provenance_chain)).flatten ++
    [createFusionProvenanceEntry "otp-cawa-v1.1" now conformanceSeal
      (some "Conflict-aware weighted average fusion operation with Conformance Seal")
      (some (fusionMetadata "conflict_aware_weighted_average" js ws))]
  NeutrosophicJudgment.construct dT dI dF chain

/-- optimistic_fusion from src/fusion.ts. -/
def optimistic_fusion (js : List NeutrosophicJudgment) (now : String) :
    Except Err NeutrosophicJudgment := do
  validateFusionInputs js none
  let rawT := listMax (js.map (·.T))
  let rawF := listMin (js.map (·.F))
  let rawI := (js.map (·.I)).sum / (js.length : ℚ)
  let total := rawT + rawI + rawF
  let dT := if total > 1 then rawT / total else rawT
  let dI := if total > 1 then rawI / total else rawI
  let dF := if total > 1 then rawF / total else rawF
  let equalWeights : List ℚ := List.replicate js.length 1
  let conformanceSeal := sealOrSentinel (generateConformanceSeal js equalWeights "otp-optimistic-v1.1")
  let chain := (js.map (·.provenance_chain)).flatten ++
    [createFusionProvenanceEntry "otp-optimistic-v1.1" now conformanceSeal
      (some "Optimistic fusion operation with Conformance Seal")
      (some (fusionMetadata "optimistic_fusion" js equalWeights))]
  NeutrosophicJudgment.construct dT dI dF chain

/-- pessimistic_fusion from src/fusion.ts. -/
def pessimistic_fusion (js : List NeutrosophicJudgment) (now : String) :
    Except Err NeutrosophicJudgment := do
  validateFusionInputs js none
  let rawT := listMin (js.map (·.T))
  let rawF := listMax (js.map (·.F))
  let rawI := (js.map (·.I)).sum / (js.length : ℚ)
  let total := rawT + rawI + rawF
  let dT := if total > 1 then rawT / total else rawT
  let dI := if total > 1 then rawI / total else rawI
  let dF := if total > 1 then rawF / total else rawF
  let equalWeights : List ℚ := List.replicate js.length 1
  let conformanceSeal := sealOrSentinel (generateConformanceSeal js equalWeights "otp-pessimistic-v1.1")
  let chain := (js.map (·.provenance_chain)).flatten ++
    [createFusionProvenanceEntry "otp-pessimistic-v1.1" now conformanceSeal
      (some "Pessimistic fusion operation with Conformance Seal")
      (some (fusionMetadata "pessimistic_fusion" js equalWeights))]
  NeutrosophicJudgment.construct dT dI dF chain

/-- The degree computed by the conflict-aware weighted average for the
component selected by f: the unweighted mean when the adjusted weights
sum to zero, the adjusted-weight-normalized mean otherwise. Definitional
shorthand for the lets inside the operator. -/
def cawaDegree (js : List NeutrosophicJudgment) (ws : List ℚ)
    (f : NeutrosophicJudgment → ℚ) : ℚ :=
  if (adjustedWeights js ws).sum = 0 then (js.map f).sum / (js.length : ℚ)
  else ((js.zip (adjustedWeights js ws)).map (fun p => f p.1 * p.2)).sum /
    (adjustedWeights js ws).sum

/-- The provenance chain the conflict-aware weighted average builds. -/
def cawaChain (js : List NeutrosophicJudgment) (ws : List ℚ) (now : String) :
    List ProvenanceEntry :=
  (js.map (fun j => j.provenance_chain)).flatten ++
    [createFusionProvenanceEntry "otp-cawa-v1.1" now
      (sealOrSentinel (generateConformanceSeal js ws "otp-cawa-v1.1"))
      (some "Conflict-aware weighted average fusion operation with Conformance Seal")
      (some (fusionMetadata "conflict_aware_weighted_average" js ws))]

/-- The degree triple of optimistic fusion: max T, mean I, min F, all
rescaled by the sum when it exceeds one. -/
def optimisticDegrees (js : List NeutrosophicJudgment) : ℚ × ℚ × ℚ :=
  let rawT := listMax (js.map (fun j => j.T))
  let rawF := listMin (js.map (fun j => j.F))
  let rawI := (js.map (fun j => j.I)).sum / (js.length : ℚ)
  let total := rawT + rawI + rawF
  (if total > 1 then rawT / total else rawT,
   if total > 1 then rawI / total else rawI,
   if total > 1 then rawF / total else rawF)

/-- The degree triple of pessimistic fusion: min T, mean I, max F, all
rescaled by the sum when it exceeds one. -/
def pessimisticDegrees (js : List NeutrosophicJudgment) : ℚ × ℚ × ℚ :=
  let rawT := listMin (js.map (fun j => j.T))
  let rawF := listMax (js.map (fun j => j.F))
  let rawI := (js.map (fun j => j.I)).sum / (js.length : ℚ)
  let total := rawT + rawI + rawF
  (if total > 1 then rawT / total else rawT,
   if total > 1 then rawI / total else rawI,
   if total > 1 then rawF / total else rawF)

/-- The provenance chain optimistic fusion builds. -/
def optimisticChain (js : List NeutrosophicJudgment) (now : String) :
    List ProvenanceEntry :=
  (js.map (fun j => j.provenance_chain)).flatten ++
    [createFusionProvenanceEntry "otp-optimistic-v1.1" now
      (sealOrSentinel
        (generateConformanceSeal js (List.replicate js.length 1) "otp-optimistic-v1.1"))
      (some "Optimistic fusion operation with Conformance Seal")
      (some (fusionMetadata "optimistic_fusion" js (List.replicate js.length 1)))]

/-- The provenance chain pessimistic fusion builds. -/
def pessimisticChain (js : List NeutrosophicJudgment) (now : String) :
    List ProvenanceEntry :=
  (js.map (fun j => j.provenance_chain)).flatten ++
    [createFusionProvenanceEntry "otp-pessimistic-v1.1" now
      (sealOrSentinel
        (generateConformanceSeal js (List.replicate js.length 1) "otp-pessimistic-v1.1"))
      (some "Pessimistic fusion operation with Conformance Seal")
      (some (fusionMetadata "pessimistic_fusion" js (List.replicate js.length 1)))]

/-- True exactly when the computation ended in a ConformanceError. -/
def isConfErr {α : Type} : Except Err α → Bool
  | .error (.conformance _) => true
  | _ => false

/-- The source_id of a judgment's last provenance entry, the canonical
sort key as seen from the original judgment. -/
def lastSource (j : NeutrosophicJudgment) : String :=
  match j.provenance_chain.getLast? with
  | some e => e.source_id
  | none => ""

/-- A judgment's degree triple, for reading fusion outputs. -/
def degreesOf (j : NeutrosophicJudgment) : ℚ × ℚ × ℚ := (j.T, j.I, j.F)

/-- Projection of constructor validity to the degree invariants of §3. -/
def InvariantsHold (j : NeutrosophicJudgment) : Prop :=
  0 ≤ j.T ∧ j.T ≤ 1 ∧ 0 ≤ j.I ∧ j.I ≤ 1 ∧ 0 ≤ j.F ∧ j.F ≤ 1 ∧ j.T + j.I + j.F ≤ 1

/-- Every ok-result of the computation satisfies P. -/
def okImplies {α : Type} (x : Except Err α) (P : α → Prop) : Prop :=
  ∀ a, x = .ok a → P a

/- Concrete values used by the decidable instances below; the degrees
are the ones the repository's own test suites use. -/

def sensorEntry1 : ProvenanceEntry :=
  { source_id := "sensor1", timestamp := "2023-01-01T00:00:00Z" }

def sensorEntry2 : ProvenanceEntry :=
  { source_id := "sensor2", timestamp := "2023-01-01T00:00:01Z" }

def exJudgment1 : NeutrosophicJudgment := ⟨4/5, 1/5, 0, [sensorEntry1]⟩

def exJudgment2 : NeutrosophicJudgment := ⟨3/5, 3/10, 1/10, [sensorEntry2]⟩

def exJudgment3 : NeutrosophicJudgment := ⟨9/10, 1/10, 0, [sensorEntry1]⟩

def exJudgment4 : NeutrosophicJudgment := ⟨4/5, 1/5, 0, [sensorEntry2]⟩

def dupEntry : ProvenanceEntry := { source_id := "s", timestamp := "t" }

def dupJudgment1 : NeutrosophicJudgment := ⟨1, 0, 0, [dupEntry]⟩

def dupJudgment2 : NeutrosophicJudgment := ⟨0, 1, 0, [dupEntry]⟩

def twoIdEntry1 : ProvenanceEntry :=
  { source_id := "a", timestamp := "t", judgment_id := some "x" }

def twoIdEntry2 : ProvenanceEntry :=
  { source_id := "b", timestamp := "t", judgment_id := some "y" }

def twoIdJudgment : NeutrosophicJudgment := ⟨1, 0, 0, [twoIdEntry1, twoIdEntry2]⟩

def emptySealEntry : ProvenanceEntry :=
  { source_id := "otp-cawa-v1.1", timestamp := "t", conformance_seal := some "" }

def emptySealJudgment : NeutrosophicJudgment := ⟨1, 0, 0, [emptySealEntry]⟩

theorem validateChainEntries_ok_iff (l : List ProvenanceEntry) :
    validateChainEntries l = .ok () ↔ ∀ e ∈ l, e.source_id ≠ "" ∧ e.timestamp ≠ "" := by
  induction l with
  | nil => simp [validateChainEntries]
  | cons e rest ih =>
    by_cases hs : e.source_id = "" <;> by_cases ht : e.timestamp = "" <;>
      simp [validateChainEntries, hs, ht, ih]

theorem validateChainEntries_generic (l : List ProvenanceEntry) :
    validateChainEntries l = .ok () ∨ ∃ msg, validateChainEntries l = .error (.error msg) := by
  induction l with
  | nil => left; rfl
  | cons e rest ih =>
    by_cases hs : e.source_id = "" <;> by_cases ht : e.timestamp = "" <;>
      simp [validateChainEntries, hs, ht, ih]

theorem validateJudgment_ok_iff (T I F : ℚ) (chain : List ProvenanceEntry) :
    validateJudgment T I F chain = .ok () ↔ ValidParams T I F chain := by
  unfold validateJudgment ValidParams
  split_ifs with h1 h2 h3 h4 h5
  · exact iff_of_false (by simp) (fun hv => by rcases h1 with h | h <;> linarith [hv.1, hv.2.1])
  · exact iff_of_false (by simp)
      (fun hv => by rcases h2 with h | h <;> linarith [hv.2.2.1, hv.2.2.2.1])
  · exact iff_of_false (by simp)
      (fun hv => by rcases h3 with h | h <;> linarith [hv.2.2.2.2.1, hv.2.2.2.2.2.1])
  · exact iff_of_false (by simp) (fun hv => by linarith [hv.2.2.2.2.2.2.1])
  · exact iff_of_false (by simp) (fun hv => hv.2.2.2.2.2.2.2.1 h5)
  · push_neg at h1 h2 h3 h4
    rw [validateChainEntries_ok_iff]
    exact ⟨fun h => ⟨h1.1, h1.2, h2.1, h2.2, h3.1, h3.2, h4, h5, h⟩,
      fun h => h.2.2.2.2.2.2.2.2⟩

theorem validateJudgment_cases (T I F : ℚ) (chain : List ProvenanceEntry) :
    validateJudgment T I F chain = .ok () ∨
      ∃ msg, validateJudgment T I F chain = .error (.error msg) := by
  unfold validateJudgment
  split_ifs <;>
    first
      | (right; exact ⟨_, rfl⟩)
      | exact validateChainEntries_generic chain

theorem construct_eq_bind (T I F : ℚ) (chain : List ProvenanceEntry) :
    NeutrosophicJudgment.construct T I F chain =
      (validateJudgment T I F chain).bind (fun _ => .ok ⟨T, I, F, chain⟩) := rfl

/-- C5: the Judgment constructor fails with a validation-kind error
exactly when one of the section-3 invariants is violated (a degree out
of the unit interval, conservation breached, an empty chain, or an entry
with an empty source_id or timestamp); otherwise it returns the judgment
holding exactly the given degrees and chain. -/
theorem c5_construct_validation_iff (T I F : ℚ) (chain : List ProvenanceEntry) :
    (NeutrosophicJudgment.construct T I F chain = .ok ⟨T, I, F, chain⟩ ↔
        ValidParams T I F chain) ∧
    ((∃ msg, NeutrosophicJudgment.construct T I F chain = .error (Err.error msg)) ↔
        ¬ ValidParams T I F chain) := by
  rcases validateJudgment_cases T I F chain with hv | ⟨msg, hv⟩
  · have hvalid := (validateJudgment_ok_iff T I F chain).mp hv
    constructor
    · simp [construct_eq_bind, hv, Except.bind, hvalid]
    · simp [construct_eq_bind, hv, Except.bind, hvalid]
  · have hnot : ¬ ValidParams T I F chain := by
      intro hval
      rw [← validateJudgment_ok_iff] at hval
      rw [hval] at hv
      cases hv
    constructor
    · simp [construct_eq_bind, hv, Except.bind, hnot]
    · simp only [construct_eq_bind, hv, Except.bind]
      exact iff_of_true ⟨msg, rfl⟩ hnot

theorem sum_map_add {α : Type} (l : List α) (f g : α → ℚ) :
    (l.map (fun x => f x + g x)).sum = (l.map f).sum + (l.map g).sum := by
  induction l with
  | nil => simp
  | cons x xs ih => simp [ih]; ring

theorem foldl_max_le (xs : List ℚ) : ∀ acc c : ℚ, acc ≤ c → (∀ x ∈ xs, x ≤ c) →
    xs.foldl max acc ≤ c := by
  induction xs with
  | nil => intro acc c h _; simpa using h
  | cons x xs ih =>
    intro acc c hacc hall
    simp only [List.foldl_cons]
    exact ih _ _ (max_le hacc (hall x (by simp))) (fun y hy => hall y (by simp [hy]))

theorem le_foldl_max (xs : List ℚ) : ∀ acc : ℚ, acc ≤ xs.foldl max acc := by
  induction xs with
  | nil => intro acc; simp
  | cons x xs ih =>
    intro acc
    simp only [List.foldl_cons]
    exact le_trans (le_max_left acc x) (ih (max acc x))

theorem le_foldl_min (xs : List ℚ) : ∀ acc c : ℚ, c ≤ acc → (∀ x ∈ xs, c ≤ x) →
    c ≤ xs.foldl min acc := by
  induction xs with
  | nil => intro acc c h _; simpa using h
  | cons x xs ih =>
    intro acc c hacc hall
    simp only [List.foldl_cons]
    exact ih _ _ (le_min hacc (hall x (by simp))) (fun y hy => hall y (by simp [hy]))

theorem foldl_min_le (xs : List ℚ) : ∀ acc : ℚ, xs.foldl min acc ≤ acc := by
  induction xs with
  | nil => intro acc; simp
  | cons x xs ih =>
    intro acc
    simp only [List.foldl_cons]
    exact le_trans (ih (min acc x)) (min_le_left acc x)

theorem listMax_le {l : List ℚ} {c : ℚ} (hne : l ≠ []) (hall : ∀ x ∈ l, x ≤ c) :
    listMax l ≤ c := by
  cases l with
  | nil => exact absurd rfl hne
  | cons x xs =>
    exact foldl_max_le xs x c (hall x (by simp)) (fun y hy => hall y (by simp [hy]))

theorem le_listMax {l : List ℚ} {c : ℚ} (hne : l ≠ []) (hall : ∀ x ∈ l, c ≤ x) :
    c ≤ listMax l := by
  cases l with
  | nil => exact absurd rfl hne
  | cons x xs => exact le_trans (hall x (by simp)) (le_foldl_max xs x)

theorem le_listMin {l : List ℚ} {c : ℚ} (hne : l ≠ []) (hall : ∀ x ∈ l, c ≤ x) :
    c ≤ listMin l := by
  cases l with
  | nil => exact absurd rfl hne
  | cons x xs =>
    exact le_foldl_min xs x c (hall x (by simp)) (fun y hy => hall y (by simp [hy]))

theorem listMin_le {l : List ℚ} {c : ℚ} (hne : l ≠ []) (hall : ∀ x ∈ l, x ≤ c) :
    listMin l ≤ c := by
  cases l with
  | nil => exact absurd rfl hne
  | cons x xs => exact le_trans (foldl_min_le xs x) (hall x (by simp))

theorem flatten_chain_entries (js : List NeutrosophicJudgment)
    (hv : ∀ j ∈ js, Valid j) :
    ∀ e ∈ (js.map (fun j => j.provenance_chain)).flatten,
      e.source_id ≠ "" ∧ e.timestamp ≠ "" := by
  intro e he
  rw [List.mem_flatten] at he
  obtain ⟨s, hs, hes⟩ := he
  rw [List.mem_map] at hs
  obtain ⟨j, hj, rfl⟩ := hs
  exact (hv j hj).2.2.2.2.2.2.2.2 e hes

theorem validateFusionInputs_none_ok {js : List NeutrosophicJudgment} (hne : js ≠ []) :
    validateFusionInputs js none = .ok () := by
  simp [validateFusionInputs, hne]

theorem validateFusionInputs_some_ok {js : List NeutrosophicJudgment} {ws : List ℚ}
    (hne : js ≠ []) (hlen : js.length = ws.length) :
    validateFusionInputs js (some ws) = .ok () := by
  simp [validateFusionInputs, hne, hlen]

theorem cawa_eq_construct (js : List NeutrosophicJudgment) (ws : List ℚ) (now : String)
    (hne : js ≠ []) (hlen : js.length = ws.length) :
    conflict_aware_weighted_average js ws now =
      NeutrosophicJudgment.construct (cawaDegree js ws (fun j => j.T))
        (cawaDegree js ws (fun j => j.I)) (cawaDegree js ws (fun j => j.F))
        (cawaChain js ws now) := by
  unfold conflict_aware_weighted_average
  rw [validateFusionInputs_some_ok hne hlen]
  rfl

theorem optimistic_eq_construct (js : List NeutrosophicJudgment) (now : String)
    (hne : js ≠ []) :
    optimistic_fusion js now =
      NeutrosophicJudgment.construct (optimisticDegrees js).1 (optimisticDegrees js).2.1
        (optimisticDegrees js).2.2 (optimisticChain js now) := by
  unfold optimistic_fusion
  rw [validateFusionInputs_none_ok hne]
  rfl

theorem pessimistic_eq_construct (js : List NeutrosophicJudgment) (now : String)
    (hne : js ≠ []) :
    pessimistic_fusion js now =
      NeutrosophicJudgment.construct (pessimisticDegrees js).1 (pessimisticDegrees js).2.1
        (pessimisticDegrees js).2.2 (pessimisticChain js now) := by
  unfold pessimistic_fusion
  rw [validateFusionInputs_none_ok hne]
  rfl

theorem adjustedWeights_nonneg (js : List NeutrosophicJudgment) (ws : List ℚ)
    (hv : ∀ j ∈ js, Valid j) (hw : ∀ w ∈ ws, 0 ≤ w) :
    ∀ a ∈ adjustedWeights js ws, 0 ≤ a := by
  intro a ha
  rw [adjustedWeights, List.mem_map] at ha
  obtain ⟨p, hp, rfl⟩ := ha
  have hmem := List.of_mem_zip hp
  have hj := hv p.1 hmem.1
  have hT0 : 0 ≤ p.1.T := hj.1
  have hT1 : p.1.T ≤ 1 := hj.2.1
  have hF0 : 0 ≤ p.1.F := hj.2.2.2.2.1
  have hF1 : p.1.F ≤ 1 := hj.2.2.2.2.2.1
  have hTF : p.1.T * p.1.F ≤ 1 := by nlinarith
  exact mul_nonneg (hw p.2 hmem.2) (by linarith)

theorem length_adjustedWeights (js : List NeutrosophicJudgment) (ws : List ℚ)
    (hlen : js.length = ws.length) :
    (adjustedWeights js ws).length = js.length := by
  simp [adjustedWeights, List.length_zip, hlen]

theorem zip_snd_sum (js : List NeutrosophicJudgment) (ws : List ℚ)
    (hlen : js.length = ws.length) :
    ((js.zip (adjustedWeights js ws)).map (fun p => p.2)).sum =
      (adjustedWeights js ws).sum := by
  have h : (js.zip (adjustedWeights js ws)).map (fun p => p.2) = adjustedWeights js ws := by
    exact List.map_snd_zip _ _ (le_of_eq (length_adjustedWeights js ws hlen))
  rw [h]

theorem cawaDegree_bounds (js : List NeutrosophicJudgment) (ws : List ℚ)
    (f : NeutrosophicJudgment → ℚ)
    (hv : ∀ j ∈ js, Valid j) (hw : ∀ w ∈ ws, 0 ≤ w)
    (hne : js ≠ []) (hlen : js.length = ws.length)
    (hf0 : ∀ j ∈ js, 0 ≤ f j) (hf1 : ∀ j ∈ js, f j ≤ 1) :
    0 ≤ cawaDegree js ws f ∧ cawaDegree js ws f ≤ 1 := by
  have hn : (0 : ℚ) < (js.length : ℚ) := by
    exact_mod_cast List.length_pos.mpr hne
  unfold cawaDegree
  split_ifs with h0
  · constructor
    · apply div_nonneg _ (le_of_lt hn)
      apply List.sum_nonneg
      intro x hx
      rw [List.mem_map] at hx
      obtain ⟨j, hj, rfl⟩ := hx
      exact hf0 j hj
    · rw [div_le_one hn]
      have h := List.sum_le_card_nsmul (js.map f) 1 ?_
      · simpa [nsmul_eq_mul] using h
      · intro x hx
        rw [List.mem_map] at hx
        obtain ⟨j, hj, rfl⟩ := hx
        exact hf1 j hj
  · have hadj := adjustedWeights_nonneg js ws hv hw
    have htot0 : 0 ≤ (adjustedWeights js ws).sum := List.sum_nonneg hadj
    have htot : 0 < (adjustedWeights js ws).sum := lt_of_le_of_ne htot0 (Ne.symm h0)
    have hnum0 : 0 ≤ ((js.zip (adjustedWeights js ws)).map (fun p => f p.1 * p.2)).sum := by
      apply List.sum_nonneg
      intro x hx
      rw [List.mem_map] at hx
      obtain ⟨p, hp, rfl⟩ := hx
      have hmem := List.of_mem_zip hp
      exact mul_nonneg (hf0 p.1 hmem.1) (hadj p.2 hmem.2)
    have hnum1 : ((js.zip (adjustedWeights js ws)).map (fun p => f p.1 * p.2)).sum ≤
        (adjustedWeights js ws).sum := by
      rw [← zip_snd_sum js ws hlen]
      apply List.sum_le_sum
      intro p hp
      have hmem := List.of_mem_zip hp
      exact mul_le_of_le_one_left (hadj p.2 hmem.2) (hf1 p.1 hmem.1)
    exact ⟨div_nonneg hnum0 htot0, (div_le_one htot).mpr hnum1⟩

theorem sum_map_three_add {α : Type} (l : List α) (f g h : α → ℚ) :
    (l.map (fun x => f x + g x + h x)).sum =
      (l.map f).sum + (l.map g).sum + (l.map h).sum := by
  induction l with
  | nil => simp
  | cons x xs ih => simp [ih]; ring

theorem cawa_conservation (js : List NeutrosophicJudgment) (ws : List ℚ)
    (hv : ∀ j ∈ js, Valid j) (hw : ∀ w ∈ ws, 0 ≤ w)
    (hne : js ≠ []) (hlen : js.length = ws.length) :
    cawaDegree js ws (fun j => j.T) + cawaDegree js ws (fun j => j.I) +
      cawaDegree js ws (fun j => j.F) ≤ 1 := by
  have hn : (0 : ℚ) < (js.length : ℚ) := by
    exact_mod_cast List.length_pos.mpr hne
  unfold cawaDegree
  split_ifs with h0
  · rw [div_add_div_same, div_add_div_same, div_le_one hn]
    have hcombine : (js.map (fun j => j.T)).sum + (js.map (fun j => j.I)).sum +
        (js.map (fun j => j.F)).sum = (js.map (fun j => j.T + j.I + j.F)).sum :=
      (sum_map_three_add js (fun j => j.T) (fun j => j.I) (fun j => j.F)).symm
    rw [hcombine]
    have h := List.sum_le_card_nsmul (js.map (fun j => j.T + j.I + j.F)) 1 ?_
    · simpa [nsmul_eq_mul] using h
    · intro x hx
      rw [List.mem_map] at hx
      obtain ⟨j, hj, rfl⟩ := hx
      exact (hv j hj).2.2.2.2.2.2.1
  · have hadj := adjustedWeights_nonneg js ws hv hw
    have htot0 : 0 ≤ (adjustedWeights js ws).sum := List.sum_nonneg hadj
    have htot : 0 < (adjustedWeights js ws).sum := lt_of_le_of_ne htot0 (Ne.symm h0)
    rw [div_add_div_same, div_add_div_same, div_le_one htot]
    have hcombine : ((js.zip (adjustedWeights js ws)).map (fun p => p.1.T * p.2)).sum +
        ((js.zip (adjustedWeights js ws)).map (fun p => p.1.I * p.2)).sum +
        ((js.zip (adjustedWeights js ws)).map (fun p => p.1.F * p.2)).sum =
        ((js.zip (adjustedWeights js ws)).map
          (fun p => (p.1.T + p.1.I + p.1.F) * p.2)).sum := by
      rw [← sum_map_three_add]
      apply congrArg List.sum
      apply List.map_congr_left
      intro p _
      ring
    rw [hcombine]
    rw [← zip_snd_sum js ws hlen]
    apply List.sum_le_sum
    intro p hp
    have hmem := List.of_mem_zip hp
    have hj := hv p.1 hmem.1
    exact mul_le_of_le_one_left (hadj p.2 hmem.2) hj.2.2.2.2.2.2.1

theorem fusionChain_params (js : List NeutrosophicJudgment) (hv : ∀ j ∈ js, Valid j)
    (ent : ProvenanceEntry) (hs : ent.source_id ≠ "") (ht : ent.timestamp ≠ "") :
    ((js.map (fun j => j.provenance_chain)).flatten ++ [ent]) ≠ [] ∧
      ∀ e ∈ (js.map (fun j => j.provenance_chain)).flatten ++ [ent],
        e.source_id ≠ "" ∧ e.timestamp ≠ "" := by
  constructor
  · simp
  · intro e he
    rw [List.mem_append] at he
    rcases he with he | he
    · exact flatten_chain_entries js hv e he
    · rw [List.mem_singleton] at he
      subst he
      exact ⟨hs, ht⟩

theorem cawa_ok (js : List NeutrosophicJudgment) (ws : List ℚ) (now : String)
    (hv : ∀ j ∈ js, Valid j) (hw : ∀ w ∈ ws, 0 ≤ w)
    (hne : js ≠ []) (hlen : js.length = ws.length) (hnow : now ≠ "") :
    conflict_aware_weighted_average js ws now =
      .ok ⟨cawaDegree js ws (fun j => j.T), cawaDegree js ws (fun j => j.I),
        cawaDegree js ws (fun j => j.F), cawaChain js ws now⟩ := by
  rw [cawa_eq_construct js ws now hne hlen]
  have hT := cawaDegree_bounds js ws (fun j => j.T) hv hw hne hlen
    (fun j hj => (hv j hj).1) (fun j hj => (hv j hj).2.1)
  have hI := cawaDegree_bounds js ws (fun j => j.I) hv hw hne hlen
    (fun j hj => (hv j hj).2.2.1) (fun j hj => (hv j hj).2.2.2.1)
  have hF := cawaDegree_bounds js ws (fun j => j.F) hv hw hne hlen
    (fun j hj => (hv j hj).2.2.2.2.1) (fun j hj => (hv j hj).2.2.2.2.2.1)
  have hsum := cawa_conservation js ws hv hw hne hlen
  have hchain := fusionChain_params js hv
    (createFusionProvenanceEntry "otp-cawa-v1.1" now
      (sealOrSentinel (generateConformanceSeal js ws "otp-cawa-v1.1"))
      (some "Conflict-aware weighted average fusion operation with Conformance Seal")
      (some (fusionMetadata "conflict_aware_weighted_average" js ws)))
    (by decide : ("otp-cawa-v1.1" : String) ≠ "") hnow
  have hparams : ValidParams (cawaDegree js ws (fun j => j.T))
      (cawaDegree js ws (fun j => j.I)) (cawaDegree js ws (fun j => j.F))
      (cawaChain js ws now) :=
    ⟨hT.1, hT.2, hI.1, hI.2, hF.1, hF.2, hsum, hchain.1, hchain.2⟩
  rw [construct_eq_bind, (validateJudgment_ok_iff _ _ _ _).mpr hparams]
  rfl

theorem mean_bounds (js : List NeutrosophicJudgment) (f : NeutrosophicJudgment → ℚ)
    (hne : js ≠ []) (hf0 : ∀ j ∈ js, 0 ≤ f j) (hf1 : ∀ j ∈ js, f j ≤ 1) :
    0 ≤ (js.map f).sum / (js.length : ℚ) ∧ (js.map f).sum / (js.length : ℚ) ≤ 1 := by
  have hn : (0 : ℚ) < (js.length : ℚ) := by
    exact_mod_cast List.length_pos.mpr hne
  constructor
  · apply div_nonneg _ (le_of_lt hn)
    apply List.sum_nonneg
    intro x hx
    rw [List.mem_map] at hx
    obtain ⟨j, hj, rfl⟩ := hx
    exact hf0 j hj
  · rw [div_le_one hn]
    have h := List.sum_le_card_nsmul (js.map f) 1 ?_
    · simpa [nsmul_eq_mul] using h
    · intro x hx
      rw [List.mem_map] at hx
      obtain ⟨j, hj, rfl⟩ := hx
      exact hf1 j hj

theorem scaled_valid (a b c : ℚ) (ha0 : 0 ≤ a) (ha1 : a ≤ 1) (hb0 : 0 ≤ b) (hb1 : b ≤ 1)
    (hc0 : 0 ≤ c) (hc1 : c ≤ 1) :
    0 ≤ (if a + b + c > 1 then a / (a + b + c) else a) ∧
    (if a + b + c > 1 then a / (a + b + c) else a) ≤ 1 ∧
    0 ≤ (if a + b + c > 1 then b / (a + b + c) else b) ∧
    (if a + b + c > 1 then b / (a + b + c) else b) ≤ 1 ∧
    0 ≤ (if a + b + c > 1 then c / (a + b + c) else c) ∧
    (if a + b + c > 1 then c / (a + b + c) else c) ≤ 1 ∧
    (if a + b + c > 1 then a / (a + b + c) else a) +
      (if a + b + c > 1 then b / (a + b + c) else b) +
      (if a + b + c > 1 then c / (a + b + c) else c) ≤ 1 := by
  by_cases h : a + b + c > 1
  · have hs : 0 < a + b + c := by linarith
    simp only [if_pos h]
    refine ⟨div_nonneg ha0 (le_of_lt hs), ?_, div_nonneg hb0 (le_of_lt hs), ?_,
      div_nonneg hc0 (le_of_lt hs), ?_, ?_⟩
    · rw [div_le_one hs]; linarith
    · rw [div_le_one hs]; linarith
    · rw [div_le_one hs]; linarith
    · rw [div_add_div_same, div_add_div_same, div_self (ne_of_gt hs)]
  · simp only [if_neg h]
    push_neg at h
    exact ⟨ha0, ha1, hb0, hb1, hc0, hc1, h⟩

theorem optimisticDegrees_valid (js : List NeutrosophicJudgment)
    (hv : ∀ j ∈ js, Valid j) (hne : js ≠ []) :
    0 ≤ (optimisticDegrees js).1 ∧ (optimisticDegrees js).1 ≤ 1 ∧
    0 ≤ (optimisticDegrees js).2.1 ∧ (optimisticDegrees js).2.1 ≤ 1 ∧
    0 ≤ (optimisticDegrees js).2.2 ∧ (optimisticDegrees js).2.2 ≤ 1 ∧
    (optimisticDegrees js).1 + (optimisticDegrees js).2.1 + (optimisticDegrees js).2.2 ≤ 1 := by
  have hmapne : ∀ f : NeutrosophicJudgment → ℚ, js.map f ≠ [] := by
    intro f h
    exact hne (List.map_eq_nil_iff.mp h)
  have hT0 : 0 ≤ listMax (js.map (fun j => j.T)) := by
    apply le_listMax (hmapne _)
    intro x hx
    rw [List.mem_map] at hx
    obtain ⟨j, hj, rfl⟩ := hx
    exact (hv j hj).1
  have hT1 : listMax (js.map (fun j => j.T)) ≤ 1 := by
    apply listMax_le (hmapne _)
    intro x hx
    rw [List.mem_map] at hx
    obtain ⟨j, hj, rfl⟩ := hx
    exact (hv j hj).2.1
  have hF0 : 0 ≤ listMin (js.map (fun j => j.F)) := by
    apply le_listMin (hmapne _)
    intro x hx
    rw [List.mem_map] at hx
    obtain ⟨j, hj, rfl⟩ := hx
    exact (hv j hj).2.2.2.2.1
  have hF1 : listMin (js.map (fun j => j.F)) ≤ 1 := by
    apply listMin_le (hmapne _)
    intro x hx
    rw [List.mem_map] at hx
    obtain ⟨j, hj, rfl⟩ := hx
    exact (hv j hj).2.2.2.2.2.1
  have hI := mean_bounds js (fun j => j.I) hne
    (fun j hj => (hv j hj).2.2.1) (fun j hj => (hv j hj).2.2.2.1)
  exact scaled_valid _ _ _ hT0 hT1 hI.1 hI.2 hF0 hF1

theorem pessimisticDegrees_valid (js : List NeutrosophicJudgment)
    (hv : ∀ j ∈ js, Valid j) (hne : js ≠ []) :
    0 ≤ (pessimisticDegrees js).1 ∧ (pessimisticDegrees js).1 ≤ 1 ∧
    0 ≤ (pessimisticDegrees js).2.1 ∧ (pessimisticDegrees js).2.1 ≤ 1 ∧
    0 ≤ (pessimisticDegrees js).2.2 ∧ (pessimisticDegrees js).2.2 ≤ 1 ∧
    (pessimisticDegrees js).1 + (pessimisticDegrees js).2.1 +
      (pessimisticDegrees js).2.2 ≤ 1 := by
  have hmapne : ∀ f : NeutrosophicJudgment → ℚ, js.map f ≠ [] := by
    intro f h
    exact hne (List.map_eq_nil_iff.mp h)
  have hT0 : 0 ≤ listMin (js.map (fun j => j.T)) := by
    apply le_listMin (hmapne _)
    intro x hx
    rw [List.mem_map] at hx
    obtain ⟨j, hj, rfl⟩ := hx
    exact (hv j hj).1
  have hT1 : listMin (js.map (fun j => j.T)) ≤ 1 := by
    apply listMin_le (hmapne _)
    intro x hx
    rw [List.mem_map] at hx
    obtain ⟨j, hj, rfl⟩ := hx
    exact (hv j hj).2.1
  have hF0 : 0 ≤ listMax (js.map (fun j => j.F)) := by
    apply le_listMax (hmapne _)
    intro x hx
    rw [List.mem_map] at hx
    obtain ⟨j, hj, rfl⟩ := hx
    exact (hv j hj).2.2.2.2.1
  have hF1 : listMax (js.map (fun j => j.F)) ≤ 1 := by
    apply listMax_le (hmapne _)
    intro x hx
    rw [List.mem_map] at hx
    obtain ⟨j, hj, rfl⟩ := hx
    exact (hv j hj).2.2.2.2.2.1
  have hI := mean_bounds js (fun j => j.I) hne
    (fun j hj => (hv j hj).2.2.1) (fun j hj => (hv j hj).2.2.2.1)
  exact scaled_valid _ _ _ hT0 hT1 hI.1 hI.2 hF0 hF1

theorem optimistic_ok (js : List NeutrosophicJudgment) (now : String)
    (hv : ∀ j ∈ js, Valid j) (hne : js ≠ []) (hnow : now ≠ "") :
    optimistic_fusion js now =
      .ok ⟨(optimisticDegrees js).1, (optimisticDegrees js).2.1,
        (optimisticDegrees js).2.2, optimisticChain js now⟩ := by
  rw [optimistic_eq_construct js now hne]
  have hd := optimisticDegrees_valid js hv hne
  have hchain := fusionChain_params js hv
    (createFusionProvenanceEntry "otp-optimistic-v1.1" now
      (sealOrSentinel
        (generateConformanceSeal js (List.replicate js.length 1) "otp-optimistic-v1.1"))
      (some "Optimistic fusion operation with Conformance Seal")
      (some (fusionMetadata "optimistic_fusion" js (List.replicate js.length 1))))
    (by decide : ("otp-optimistic-v1.1" : String) ≠ "") hnow
  have hparams : ValidParams (optimisticDegrees js).1 (optimisticDegrees js).2.1
      (optimisticDegrees js).2.2 (optimisticChain js now) :=
    ⟨hd.1, hd.2.1, hd.2.2.1, hd.2.2.2.1, hd.2.2.2.2.1, hd.2.2.2.2.2.1, hd.2.2.2.2.2.2,
      hchain.1, hchain.2⟩
  rw [construct_eq_bind, (validateJudgment_ok_iff _ _ _ _).mpr hparams]
  rfl

theorem pessimistic_ok (js : List NeutrosophicJudgment) (now : String)
    (hv : ∀ j ∈ js, Valid j) (hne : js ≠ []) (hnow : now ≠ "") :
    pessimistic_fusion js now =
      .ok ⟨(pessimisticDegrees js).1, (pessimisticDegrees js).2.1,
        (pessimisticDegrees js).2.2, pessimisticChain js now⟩ := by
  rw [pessimistic_eq_construct js now hne]
  have hd := pessimisticDegrees_valid js hv hne
  have hchain := fusionChain_params js hv
    (createFusionProvenanceEntry "otp-pessimistic-v1.1" now
      (sealOrSentinel
        (generateConformanceSeal js (List.replicate js.length 1) "otp-pessimistic-v1.1"))
      (some "Pessimistic fusion operation with Conformance Seal")
      (some (fusionMetadata "pessimistic_fusion" js (List.replicate js.length 1))))
    (by decide : ("otp-pessimistic-v1.1" : String) ≠ "") hnow
  have hparams : ValidParams (pessimisticDegrees js).1 (pessimisticDegrees js).2.1
      (pessimisticDegrees js).2.2 (pessimisticChain js now) :=
    ⟨hd.1, hd.2.1, hd.2.2.1, hd.2.2.2.1, hd.2.2.2.2.1, hd.2.2.2.2.2.1, hd.2.2.2.2.2.2,
      hchain.1, hchain.2⟩
  rw [construct_eq_bind, (validateJudgment_ok_iff _ _ _ _).mpr hparams]
  rfl

theorem construct_ok_inv (T I F : ℚ) (chain : List ProvenanceEntry)
    (j : NeutrosophicJudgment) (h : NeutrosophicJudgment.construct T I F chain = .ok j) :
    Valid j ∧ j = ⟨T, I, F, chain⟩ := by
  rcases validateJudgment_cases T I F chain with hval | ⟨msg, hval⟩
  · rw [construct_eq_bind, hval] at h
    simp only [Except.bind, Except.ok.injEq] at h
    refine ⟨?_, h.symm⟩
    rw [← h]
    exact (validateJudgment_ok_iff T I F chain).mp hval
  · rw [construct_eq_bind, hval] at h
    simp [Except.bind] at h

theorem cawa_bind_view (js : List NeutrosophicJudgment) (ws : List ℚ) (now : String) :
    conflict_aware_weighted_average js ws now =
      (validateFusionInputs js (some ws)).bind (fun _ =>
        NeutrosophicJudgment.construct (cawaDegree js ws (fun j => j.T))
          (cawaDegree js ws (fun j => j.I)) (cawaDegree js ws (fun j => j.F))
          (cawaChain js ws now)) := rfl

theorem optimistic_bind_view (js : List NeutrosophicJudgment) (now : String) :
    optimistic_fusion js now =
      (validateFusionInputs js none).bind (fun _ =>
        NeutrosophicJudgment.construct (optimisticDegrees js).1 (optimisticDegrees js).2.1
          (optimisticDegrees js).2.2 (optimisticChain js now)) := rfl

theorem pessimistic_bind_view (js : List NeutrosophicJudgment) (now : String) :
    pessimistic_fusion js now =
      (validateFusionInputs js none).bind (fun _ =>
        NeutrosophicJudgment.construct (pessimisticDegrees js).1 (pessimisticDegrees js).2.1
          (pessimisticDegrees js).2.2 (pessimisticChain js now)) := rfl

theorem cawa_valid_of_ok (js : List NeutrosophicJudgment) (ws : List ℚ) (now : String)
    (j : NeutrosophicJudgment) (h : conflict_aware_weighted_average js ws now = .ok j) :
    Valid j := by
  rw [cawa_bind_view] at h
  cases hval : validateFusionInputs js (some ws) with
  | error e => rw [hval] at h; simp [Except.bind] at h
  | ok u => rw [hval] at h; exact (construct_ok_inv _ _ _ _ j h).1

theorem optimistic_valid_of_ok (js : List NeutrosophicJudgment) (now : String)
    (j : NeutrosophicJudgment) (h : optimistic_fusion js now = .ok j) : Valid j := by
  rw [optimistic_bind_view] at h
  cases hval : validateFusionInputs js none with
  | error e => rw [hval] at h; simp [Except.bind] at h
  | ok u => rw [hval] at h; exact (construct_ok_inv _ _ _ _ j h).1

theorem pessimistic_valid_of_ok (js : List NeutrosophicJudgment) (now : String)
    (j : NeutrosophicJudgment) (h : pessimistic_fusion js now = .ok j) : Valid j := by
  rw [pessimistic_bind_view] at h
  cases hval : validateFusionInputs js none with
  | error e => rw [hval] at h; simp [Except.bind] at h
  | ok u => rw [hval] at h; exact (construct_ok_inv _ _ _ _ j h).1

theorem validateFusionInputs_cases (js : List NeutrosophicJudgment)
    (ws : Option (List ℚ)) :
    validateFusionInputs js ws = .ok () ∨
      ∃ msg, validateFusionInputs js ws = .error (.error msg) := by
  unfold validateFusionInputs
  split_ifs
  · right; exact ⟨_, rfl⟩
  · cases ws with
    | none => left; rfl
    | some w =>
      simp only []
      split_ifs
      · right; exact ⟨_, rfl⟩
      · left; rfl

theorem isConfErr_construct (T I F : ℚ) (chain : List ProvenanceEntry) :
    isConfErr (NeutrosophicJudgment.construct T I F chain) = false := by
  rcases validateJudgment_cases T I F chain with hval | ⟨msg, hval⟩ <;>
    simp [construct_eq_bind, hval, Except.bind, isConfErr]

theorem isConfErr_bind_fusion (v : Except Err Unit)
    (hv : v = .ok () ∨ ∃ msg, v = .error (.error msg))
    (f : Unit → Except Err NeutrosophicJudgment)
    (hf : ∀ u, isConfErr (f u) = false) :
    isConfErr (v.bind f) = false := by
  rcases hv with hv | ⟨msg, hv⟩ <;> subst hv
  · simpa [Except.bind] using hf ()
  · simp [Except.bind, isConfErr]

theorem isConfErr_cawa (js : List NeutrosophicJudgment) (ws : List ℚ) (now : String) :
    isConfErr (conflict_aware_weighted_average js ws now) = false := by
  rw [cawa_bind_view]
  exact isConfErr_bind_fusion _ (validateFusionInputs_cases js (some ws)) _
    (fun _ => isConfErr_construct _ _ _ _)

theorem isConfErr_optimistic (js : List NeutrosophicJudgment) (now : String) :
    isConfErr (optimistic_fusion js now) = false := by
  rw [optimistic_bind_view]
  exact isConfErr_bind_fusion _ (validateFusionInputs_cases js none) _
    (fun _ => isConfErr_construct _ _ _ _)

theorem isConfErr_pessimistic (js : List NeutrosophicJudgment) (now : String) :
    isConfErr (pessimistic_fusion js now) = false := by
  rw [pessimistic_bind_view]
  exact isConfErr_bind_fusion _ (validateFusionInputs_cases js none) _
    (fun _ => isConfErr_construct _ _ _ _)

theorem compressBlock_length (h block : List Nat) : (compressBlock h block).length = 8 := rfl

theorem foldl_compress_length (blocks : List (List Nat)) :
    ∀ h : List Nat, h.length = 8 → (blocks.foldl compressBlock h).length = 8 := by
  induction blocks with
  | nil => intro h hh; simpa using hh
  | cons b bs ih =>
    intro h hh
    simp only [List.foldl_cons]
    exact ih _ (compressBlock_length h b)

theorem sha256Words_length (msg : List Nat) : (sha256Words msg).length = 8 :=
  foldl_compress_length _ shaH0 rfl

theorem toHex8_length (x : Nat) : (toHex8 x).length = 8 := rfl

theorem foldl_append_length (l : List String) :
    ∀ acc : String, (l.foldl (fun r s => r ++ s) acc).length =
      acc.length + (l.map String.length).sum := by
  induction l with
  | nil => intro acc; simp
  | cons s rest ih =>
    intro acc
    simp only [List.foldl_cons, List.map_cons, List.sum_cons, ih, String.length_append]
    ring

theorem sum_map_const_eight (l : List Nat) : (l.map (fun _ => (8 : Nat))).sum = 8 * l.length := by
  induction l with
  | nil => simp
  | cons x xs ih => simp [ih]; ring

theorem sha256hex_length (s : String) : (sha256hex s).length = 64 := by
  show (((sha256Words (utf8Encode s)).map toHex8).foldl (fun r t => r ++ t) "").length = 64
  rw [foldl_append_length]
  have h1 : ((sha256Words (utf8Encode s)).map toHex8).map String.length =
      (sha256Words (utf8Encode s)).map (fun _ => (8 : Nat)) := by
    rw [List.map_map]
    apply List.map_congr_left
    intro x _
    exact toHex8_length x
  rw [h1, sum_map_const_eight, sha256Words_length]
  rfl

theorem sha256hex_ne_empty (s : String) : sha256hex s ≠ "" := by
  intro h
  have := sha256hex_length s
  rw [h] at this
  simp at this

theorem generateConformanceSeal_ok (js : List NeutrosophicJudgment) (ws : List ℚ)
    (op : String) (hne : js ≠ []) (hlen : js.length = ws.length) (hop : op ≠ "") :
    generateConformanceSeal js ws op = .ok (sha256hex (sealInputString js ws op)) := by
  unfold generateConformanceSeal
  rw [if_neg (by simp [hlen]), if_neg (by simp [hne]), if_neg hop]

theorem pairKey_canonical (j : NeutrosophicJudgment) (w : ℚ) :
    pairKey ⟨canonicalizeJudgment j, w⟩ = lastSource j := by
  unfold pairKey lastSource canonicalizeJudgment
  rw [List.getLast?_map]
  cases j.provenance_chain.getLast? <;> rfl

theorem pairwise_strengthen {α : Type} {R S T : α → α → Prop}
    (h : ∀ a b, R a b → S a b → T a b) :
    ∀ {l : List α}, List.Pairwise R l → List.Pairwise S l → List.Pairwise T l := by
  intro l hR hS
  induction l with
  | nil => exact List.Pairwise.nil
  | cons x xs ih =>
    rcases List.pairwise_cons.mp hR with ⟨hRx, hRxs⟩
    rcases List.pairwise_cons.mp hS with ⟨hSx, hSxs⟩
    exact List.pairwise_cons.mpr ⟨fun y hy => h _ _ (hRx y hy) (hSx y hy), ih hRxs hSxs⟩

theorem charListLe_total (xs ys : List Char) :
    charListLe xs ys = true ∨ charListLe ys xs = true := by
  induction xs generalizing ys with
  | nil => left; rfl
  | cons c cs ih =>
    cases ys with
    | nil => right; rfl
    | cons d ds =>
      by_cases h1 : c.toNat < d.toNat
      · left; simp [charListLe, h1]
      · by_cases h2 : d.toNat < c.toNat
        · right; simp [charListLe, h2]
        · rcases ih ds with h | h
          · left; simp [charListLe, h1, h2, h]
          · right; simp [charListLe, h1, h2, h]

theorem charListLe_trans (xs ys zs : List Char) (h1 : charListLe xs ys = true)
    (h2 : charListLe ys zs = true) : charListLe xs zs = true := by
  induction xs generalizing ys zs with
  | nil => rfl
  | cons c cs ih =>
    cases ys with
    | nil => simp [charListLe] at h1
    | cons d ds =>
      cases zs with
      | nil => simp [charListLe] at h2
      | cons e es =>
        simp only [charListLe] at h1 h2 ⊢
        split_ifs at h1 h2 ⊢
        all_goals first
          | rfl
          | (exact ih ds es h1 h2)
          | omega

theorem char_eq_of_toNat_eq (a b : Char) (h : a.toNat = b.toNat) : a = b :=
  Char.ext (UInt32.ext h)

theorem charListLe_antisymm (xs ys : List Char) (h1 : charListLe xs ys = true)
    (h2 : charListLe ys xs = true) : xs = ys := by
  induction xs generalizing ys with
  | nil =>
    cases ys with
    | nil => rfl
    | cons d ds => simp [charListLe] at h2
  | cons c cs ih =>
    cases ys with
    | nil => simp [charListLe] at h1
    | cons d ds =>
      simp only [charListLe] at h1 h2
      by_cases hcd : c.toNat < d.toNat
      · rw [if_neg (by omega : ¬ d.toNat < c.toNat), if_pos hcd] at h2
        simp at h2
      · by_cases hdc : d.toNat < c.toNat
        · rw [if_neg hcd, if_pos hdc] at h1
          simp at h1
        · rw [if_neg hcd, if_neg hdc] at h1
          rw [if_neg hdc, if_neg hcd] at h2
          have hc : c = d := char_eq_of_toNat_eq c d (by omega)
          rw [hc, ih ds h1 h2]

theorem strLe_antisymm (a b : String) (h1 : strLe a b = true)
    (h2 : strLe b a = true) : a = b :=
  congrArg String.mk (charListLe_antisymm a.toList b.toList h1 h2)

theorem sortPairs_perm (ps : List JudgmentWeightPair) : (sortPairs ps).Perm ps :=
  List.perm_insertionSort _ ps

theorem sortPairs_sorted (ps : List JudgmentWeightPair) :
    List.Sorted (fun a b => strLe (pairKey a) (pairKey b) = true) (sortPairs ps) := by
  haveI : IsTotal JudgmentWeightPair (fun a b => strLe (pairKey a) (pairKey b) = true) :=
    ⟨fun a b => charListLe_total _ _⟩
  haveI : IsTrans JudgmentWeightPair (fun a b => strLe (pairKey a) (pairKey b) = true) :=
    ⟨fun _ _ _ h1 h2 => charListLe_trans _ _ _ h1 h2⟩
  exact List.sorted_insertionSort _ ps

/-- Two sorted pair lists holding the same pairs, with pairwise-distinct
sort keys, are equal: the canonical order is unique once keys are
distinct. -/
theorem sorted_eq_of_perm_of_nodup_keys (l₁ l₂ : List JudgmentWeightPair)
    (hperm : l₁.Perm l₂)
    (hs₁ : List.Sorted (fun a b => strLe (pairKey a) (pairKey b) = true) l₁)
    (hs₂ : List.Sorted (fun a b => strLe (pairKey a) (pairKey b) = true) l₂)
    (hnd : (l₁.map pairKey).Nodup) : l₁ = l₂ := by
  haveI : IsAntisymm JudgmentWeightPair
      (fun a b => strLe (pairKey a) (pairKey b) = true ∧ pairKey a ≠ pairKey b) :=
    ⟨fun a b h1 h2 => absurd (strLe_antisymm _ _ h1.1 h2.1) h1.2⟩
  have hne₁ : List.Pairwise (fun a b => pairKey a ≠ pairKey b) l₁ :=
    (List.pairwise_map.mp hnd)
  have hnd₂ : (l₂.map pairKey).Nodup := ((hperm.map pairKey).nodup_iff).mp hnd
  have hne₂ : List.Pairwise (fun a b => pairKey a ≠ pairKey b) l₂ :=
    (List.pairwise_map.mp hnd₂)
  have hlt₁ := pairwise_strengthen (T := fun a b =>
      strLe (pairKey a) (pairKey b) = true ∧ pairKey a ≠ pairKey b)
    (fun _ _ hle hne => ⟨hle, hne⟩) hs₁ hne₁
  have hlt₂ := pairwise_strengthen (T := fun a b =>
      strLe (pairKey a) (pairKey b) = true ∧ pairKey a ≠ pairKey b)
    (fun _ _ hle hne => ⟨hle, hne⟩) hs₂ hne₂
  exact List.eq_of_perm_of_sorted hperm hlt₁ hlt₂

theorem mkPairs_keys (js : List NeutrosophicJudgment) (ws : List ℚ)
    (hlen : js.length = ws.length) :
    (mkPairs js ws).map pairKey = js.map lastSource := by
  unfold mkPairs
  rw [List.map_map]
  have h1 : (pairKey ∘ fun p : NeutrosophicJudgment × ℚ =>
      (⟨canonicalizeJudgment p.1, p.2⟩ : JudgmentWeightPair)) =
      (fun p : NeutrosophicJudgment × ℚ => lastSource p.1) := by
    funext p
    exact pairKey_canonical p.1 p.2
  rw [h1]
  have h2 : (fun p : NeutrosophicJudgment × ℚ => lastSource p.1) =
      lastSource ∘ Prod.fst := rfl
  rw [h2, ← List.map_map, List.map_fst_zip js ws (le_of_eq hlen)]

/-- Permuting the judgment-weight pairs leaves the sorted canonical pair
list unchanged, provided the last-entry source ids are pairwise
distinct. -/
theorem sortPairs_perm_invariant (js js' : List NeutrosophicJudgment)
    (ws ws' : List ℚ) (hlen : js.length = ws.length)
    (hperm : (js.zip ws).Perm (js'.zip ws')) (hnd : (js.map lastSource).Nodup) :
    sortPairs (mkPairs js ws) = sortPairs (mkPairs js' ws') := by
  have hpairs : (mkPairs js ws).Perm (mkPairs js' ws') := hperm.map _
  have hkeys : ((mkPairs js ws).map pairKey).Nodup := by
    rw [mkPairs_keys js ws hlen]
    exact hnd
  have hsortnd : ((sortPairs (mkPairs js ws)).map pairKey).Nodup :=
    (((sortPairs_perm (mkPairs js ws)).map pairKey).nodup_iff).mpr hkeys
  apply sorted_eq_of_perm_of_nodup_keys _ _ ?_ (sortPairs_sorted _) (sortPairs_sorted _) hsortnd
  exact (sortPairs_perm _).trans (hpairs.trans (sortPairs_perm _).symm)

theorem seal_perm_invariant (js js' : List NeutrosophicJudgment) (ws ws' : List ℚ)
    (op : String) (hlen : js.length = ws.length) (hlen' : js'.length = ws'.length)
    (hperm : (js.zip ws).Perm (js'.zip ws'))
    (hnd : (js.map lastSource).Nodup) :
    generateConformanceSeal js ws op = generateConformanceSeal js' ws' op := by
  have hlenzip : js.length = js'.length := by
    have h1 : (js.zip ws).length = js.length := by rw [List.length_zip, ← hlen, min_self]
    have h2 : (js'.zip ws').length = js'.length := by rw [List.length_zip, ← hlen', min_self]
    rw [← h1, ← h2, hperm.length_eq]
  by_cases h0 : js.length = 0
  · have h0' : js'.length = 0 := by rw [← hlenzip]; exact h0
    unfold generateConformanceSeal
    rw [if_neg (not_ne_iff.mpr hlen), if_neg (not_ne_iff.mpr hlen'), if_pos h0, if_pos h0']
  · have h0' : ¬ js'.length = 0 := fun h => h0 (hlenzip.trans h)
    have hsort := sortPairs_perm_invariant js js' ws ws' hlen hperm hnd
    unfold generateConformanceSeal
    rw [if_neg (not_ne_iff.mpr hlen), if_neg (not_ne_iff.mpr hlen'), if_neg h0, if_neg h0']
    unfold sealInputString
    rw [hsort]

theorem valid_invariants (j : NeutrosophicJudgment) (h : Valid j) : InvariantsHold j :=
  ⟨h.1, h.2.1, h.2.2.1, h.2.2.2.1, h.2.2.2.2.1, h.2.2.2.2.2.1, h.2.2.2.2.2.2.1⟩

theorem mean_conservation (js : List NeutrosophicJudgment)
    (hv : ∀ j ∈ js, Valid j) (hne : js ≠ []) :
    (js.map (fun j => j.T)).sum / (js.length : ℚ) +
      (js.map (fun j => j.I)).sum / (js.length : ℚ) +
      (js.map (fun j => j.F)).sum / (js.length : ℚ) ≤ 1 := by
  have hn : (0 : ℚ) < (js.length : ℚ) := by
    exact_mod_cast List.length_pos.mpr hne
  rw [div_add_div_same, div_add_div_same, div_le_one hn]
  have hcombine : (js.map (fun j => j.T)).sum + (js.map (fun j => j.I)).sum +
      (js.map (fun j => j.F)).sum = (js.map (fun j => j.T + j.I + j.F)).sum :=
    (sum_map_three_add js (fun j => j.T) (fun j => j.I) (fun j => j.F)).symm
  rw [hcombine]
  have h := List.sum_le_card_nsmul (js.map (fun j => j.T + j.I + j.F)) 1 ?_
  · simpa [nsmul_eq_mul] using h
  · intro x hx
    rw [List.mem_map] at hx
    obtain ⟨j, hj, rfl⟩ := hx
    exact (hv j hj).2.2.2.2.2.2.1

/-- C4: every judgment a fusion operator successfully returns satisfies
the degree invariants (each degree in the unit interval and
T + I + F at most one), because the operators end in the validating
constructor; and on valid inputs with matching non-negative weights the
conflict-aware weighted average does succeed, its output being a convex
combination (or plain mean) of the inputs. -/
theorem c4_fusion_preserves_invariants (js : List NeutrosophicJudgment) (ws : List ℚ)
    (now : String) (hv : ∀ j ∈ js, Valid j) :
    okImplies (conflict_aware_weighted_average js ws now) InvariantsHold ∧
    okImplies (optimistic_fusion js now) InvariantsHold ∧
    okImplies (pessimistic_fusion js now) InvariantsHold ∧
    (js ≠ [] → js.length = ws.length → (∀ w ∈ ws, 0 ≤ w) → now ≠ "" →
      (conflict_aware_weighted_average js ws now).isOk = true) := by
  refine ⟨?_, ?_, ?_, ?_⟩
  · intro j h
    exact valid_invariants j (cawa_valid_of_ok js ws now j h)
  · intro j h
    exact valid_invariants j (optimistic_valid_of_ok js now j h)
  · intro j h
    exact valid_invariants j (pessimistic_valid_of_ok js now j h)
  · intro hne hlen hw hnow
    rw [cawa_ok js ws now hv hw hne hlen hnow]
    rfl

theorem c4_witness :
    (conflict_aware_weighted_average [exJudgment1, exJudgment2] [3/5, 2/5]
      "2023-01-01T00:00:02Z").isOk = true :=
  (c4_fusion_preserves_invariants [exJudgment1, exJudgment2] [3/5, 2/5]
    "2023-01-01T00:00:02Z" (by decide)).2.2.2 (by decide) (by decide) (by decide) (by decide)

/-- C6: when the adjusted weights sum to exactly zero, the
conflict-aware weighted average returns the plain unweighted arithmetic
means of T, I and F over the inputs. -/
theorem c6_zero_weight_fallback (js : List NeutrosophicJudgment) (ws : List ℚ)
    (now : String) (hv : ∀ j ∈ js, Valid j) (hne : js ≠ [])
    (hlen : js.length = ws.length) (hnow : now ≠ "")
    (hzero : ((js.zip ws).map (fun p => p.2 * (1 - p.1.T * p.1.F))).sum = 0) :
    (conflict_aware_weighted_average js ws now).map degreesOf =
      .ok ((js.map (fun j => j.T)).sum / (js.length : ℚ),
        (js.map (fun j => j.I)).sum / (js.length : ℚ),
        (js.map (fun j => j.F)).sum / (js.length : ℚ)) := by
  have hz : (adjustedWeights js ws).sum = 0 := hzero
  have hdT : cawaDegree js ws (fun j => j.T) = (js.map (fun j => j.T)).sum / (js.length : ℚ) := by
    unfold cawaDegree
    rw [if_pos hz]
  have hdI : cawaDegree js ws (fun j => j.I) = (js.map (fun j => j.I)).sum / (js.length : ℚ) := by
    unfold cawaDegree
    rw [if_pos hz]
  have hdF : cawaDegree js ws (fun j => j.F) = (js.map (fun j => j.F)).sum / (js.length : ℚ) := by
    unfold cawaDegree
    rw [if_pos hz]
  have hT := mean_bounds js (fun j => j.T) hne
    (fun j hj => (hv j hj).1) (fun j hj => (hv j hj).2.1)
  have hI := mean_bounds js (fun j => j.I) hne
    (fun j hj => (hv j hj).2.2.1) (fun j hj => (hv j hj).2.2.2.1)
  have hF := mean_bounds js (fun j => j.F) hne
    (fun j hj => (hv j hj).2.2.2.2.1) (fun j hj => (hv j hj).2.2.2.2.2.1)
  have hchain := fusionChain_params js hv
    (createFusionProvenanceEntry "otp-cawa-v1.1" now
      (sealOrSentinel (generateConformanceSeal js ws "otp-cawa-v1.1"))
      (some "Conflict-aware weighted average fusion operation with Conformance Seal")
      (some (fusionMetadata "conflict_aware_weighted_average" js ws)))
    (by decide : ("otp-cawa-v1.1" : String) ≠ "") hnow
  have hparams : ValidParams ((js.map (fun j => j.T)).sum / (js.length : ℚ))
      ((js.map (fun j => j.I)).sum / (js.length : ℚ))
      ((js.map (fun j => j.F)).sum / (js.length : ℚ)) (cawaChain js ws now) :=
    ⟨hT.1, hT.2, hI.1, hI.2, hF.1, hF.2, mean_conservation js hv hne, hchain.1, hchain.2⟩
  rw [cawa_eq_construct js ws now hne hlen, hdT, hdI, hdF, construct_eq_bind,
    (validateJudgment_ok_iff _ _ _ _).mpr hparams]
  rfl

theorem c6_witness :
    (conflict_aware_weighted_average [exJudgment3, exJudgment4] [0, 0]
      "2023-01-01T00:00:02Z").map degreesOf = .ok (17/20, 3/20, 0) :=
  (c6_zero_weight_fallback [exJudgment3, exJudgment4] [0, 0] "2023-01-01T00:00:02Z"
    (by decide) (by decide) (by decide) (by decide) (by decide)).trans
    (congrArg Except.ok (by decide))

/-- C7: on valid non-empty inputs, optimistic fusion returns T equal to
the maximum input T, F the minimum input F and I the arithmetic mean of
the input I, all three divided by their sum when that sum exceeds one;
pessimistic fusion returns the dual (minimum T, maximum F, mean I) with
the same rescaling; and both outputs satisfy T + I + F at most one. -/
theorem c7_optimistic_pessimistic_formulas (js : List NeutrosophicJudgment) (now : String)
    (hv : ∀ j ∈ js, Valid j) (hne : js ≠ []) (hnow : now ≠ "") :
    ((optimistic_fusion js now).map degreesOf =
      .ok (let mT := listMax (js.map (fun j => j.T))
           let mF := listMin (js.map (fun j => j.F))
           let mI := (js.map (fun j => j.I)).sum / (js.length : ℚ)
           let s := mT + mI + mF
           (if s > 1 then mT / s else mT, if s > 1 then mI / s else mI,
            if s > 1 then mF / s else mF))) ∧
    okImplies (optimistic_fusion js now) (fun j => j.T + j.I + j.F ≤ 1) ∧
    ((pessimistic_fusion js now).map degreesOf =
      .ok (let mT := listMin (js.map (fun j => j.T))
           let mF := listMax (js.map (fun j => j.F))
           let mI := (js.map (fun j => j.I)).sum / (js.length : ℚ)
           let s := mT + mI + mF
           (if s > 1 then mT / s else mT, if s > 1 then mI / s else mI,
            if s > 1 then mF / s else mF))) ∧
    okImplies (pessimistic_fusion js now) (fun j => j.T + j.I + j.F ≤ 1) := by
  refine ⟨?_, ?_, ?_, ?_⟩
  · rw [optimistic_ok js now hv hne hnow]
    rfl
  · intro j h
    exact (optimistic_valid_of_ok js now j h).2.2.2.2.2.2.1
  · rw [pessimistic_ok js now hv hne hnow]
    rfl
  · intro j h
    exact (pessimistic_valid_of_ok js now j h).2.2.2.2.2.2.1

theorem c7_witness :
    (optimistic_fusion [exJudgment1, exJudgment2] "2023-01-01T00:00:02Z").map degreesOf =
      .ok (16/21, 5/21, 0) :=
  ((c7_optimistic_pessimistic_formulas [exJudgment1, exJudgment2] "2023-01-01T00:00:02Z"
    (by decide) (by decide) (by decide)).1).trans (congrArg Except.ok (by decide))

/-- C9: seal-generation failure is never fatal to fusion: the catch
substitutes the empty-string sentinel for any seal error, no fusion
operator ever surfaces a ConformanceError, and on valid inputs the
conflict-aware weighted average still returns a fused judgment whose
trailing entry stores exactly the catch's result for the seal
computation. -/
theorem c9_seal_failure_nonfatal :
    (∀ e, sealOrSentinel (.error e) = "") ∧
    (∀ (js : List NeutrosophicJudgment) (ws : List ℚ) (now : String),
      isConfErr (conflict_aware_weighted_average js ws now) = false) ∧
    (∀ (js : List NeutrosophicJudgment) (now : String),
      isConfErr (optimistic_fusion js now) = false) ∧
    (∀ (js : List NeutrosophicJudgment) (now : String),
      isConfErr (pessimistic_fusion js now) = false) ∧
    (∀ (js : List NeutrosophicJudgment) (ws : List ℚ) (now : String),
      (∀ j ∈ js, Valid j) → (∀ w ∈ ws, 0 ≤ w) → js ≠ [] → js.length = ws.length →
      now ≠ "" →
      (conflict_aware_weighted_average js ws now).map
        (fun j => (j.provenance_chain.getLast?).bind (fun e => e.conformance_seal)) =
        .ok (some (sealOrSentinel (generateConformanceSeal js ws "otp-cawa-v1.1")))) := by
  refine ⟨fun e => rfl, isConfErr_cawa, isConfErr_optimistic, isConfErr_pessimistic, ?_⟩
  intro js ws now hv hw hne hlen hnow
  rw [cawa_ok js ws now hv hw hne hlen hnow]
  simp [Except.map, cawaChain, createFusionProvenanceEntry, List.getLast?_concat]

theorem c9_witness :
    (conflict_aware_weighted_average [exJudgment1, exJudgment2] [3/5, 2/5]
      "2023-01-01T00:00:02Z").map
      (fun j => (j.provenance_chain.getLast?).bind (fun e => e.conformance_seal)) =
      .ok (some (sealOrSentinel
        (generateConformanceSeal [exJudgment1, exJudgment2] [3/5, 2/5] "otp-cawa-v1.1"))) :=
  c9_seal_failure_nonfatal.2.2.2.2 [exJudgment1, exJudgment2] [3/5, 2/5]
    "2023-01-01T00:00:02Z" (by decide) (by decide) (by decide) (by decide) (by decide)

/-- C10: the sentinel written on seal failure is the empty string, and
verification of a judgment whose last provenance entry stores the empty
string as its seal throws ConformanceError (the JS truthiness test
treats it as missing) for every choice of inputs and weights, so it can
never return false, let alone true. -/
theorem c10_sentinel_never_verifies :
    (∀ e, sealOrSentinel (.error e) = "") ∧
    (∀ (fused : NeutrosophicJudgment) (js : List NeutrosophicJudgment) (ws : List ℚ),
      (fused.provenance_chain.getLast?).bind (fun e => e.conformance_seal) = some "" →
      verifyConformanceSealWithInputs fused js ws =
        .error (.conformance "Missing conformance seal in fused judgment")) := by
  refine ⟨fun e => rfl, ?_⟩
  intro fused js ws h
  unfold verifyConformanceSealWithInputs
  cases hlast : fused.provenance_chain.getLast? with
  | none => rw [hlast] at h; simp [Option.bind] at h
  | some e =>
    rw [hlast] at h
    simp only [Option.some_bind] at h
    simp [h]

theorem c10_witness :
    verifyConformanceSealWithInputs emptySealJudgment [exJudgment1] [1] =
      .error (.conformance "Missing conformance seal in fused judgment") :=
  c10_sentinel_never_verifies.2 emptySealJudgment [exJudgment1] [1] (by decide)

theorem idEntry_hasId (j : NeutrosophicJudgment) (now : String) :
    entryHasJudgmentId (judgmentIdEntry j now) = true := by
  simp only [entryHasJudgmentId, judgmentIdEntry, decide_eq_true_eq]
  exact sha256hex_ne_empty _

/-- C8 (amended): ensureId returns the input unchanged when some entry
already carries a truthy judgment_id; otherwise, on a valid judgment and
non-empty timestamp, it appends exactly one trailing entry carrying a
judgment_id, and applying it twice to a judgment that had no judgment_id
entry yields a chain with exactly one. (The consequence fails for
judgments that already hold several judgment_id entries, which the
counterexample exhibits; such chains arise from fusing two ensured
judgments, since fusion concatenates input chains.) -/
theorem c8_ensure_id_idempotent :
    (∀ (j : NeutrosophicJudgment) (now : String),
      j.provenance_chain.any entryHasJudgmentId = true → ensureJudgmentId j now = .ok j) ∧
    (∀ (j : NeutrosophicJudgment) (now : String), Valid j → now ≠ "" →
      j.provenance_chain.any entryHasJudgmentId = false →
      ensureJudgmentId j now =
        .ok ⟨j.T, j.I, j.F, j.provenance_chain ++ [judgmentIdEntry j now]⟩ ∧
      (j.provenance_chain ++ [judgmentIdEntry j now]).countP entryHasJudgmentId = 1) ∧
    (∀ (j : NeutrosophicJudgment) (now now2 : String), Valid j → now ≠ "" →
      j.provenance_chain.any entryHasJudgmentId = false →
      ((ensureJudgmentId j now).bind (fun a => ensureJudgmentId a now2)).map
        (fun a => a.provenance_chain.countP entryHasJudgmentId) = .ok 1) := by
  have part1 : ∀ (j : NeutrosophicJudgment) (now : String),
      j.provenance_chain.any entryHasJudgmentId = true → ensureJudgmentId j now = .ok j := by
    intro j now h
    simp [ensureJudgmentId, h]
  have part2 : ∀ (j : NeutrosophicJudgment) (now : String), Valid j → now ≠ "" →
      j.provenance_chain.any entryHasJudgmentId = false →
      ensureJudgmentId j now =
        .ok ⟨j.T, j.I, j.F, j.provenance_chain ++ [judgmentIdEntry j now]⟩ ∧
      (j.provenance_chain ++ [judgmentIdEntry j now]).countP entryHasJudgmentId = 1 := by
    intro j now hval hnow h
    have hcount : (j.provenance_chain ++ [judgmentIdEntry j now]).countP
        entryHasJudgmentId = 1 := by
      rw [List.countP_append]
      have h0 : j.provenance_chain.countP entryHasJudgmentId = 0 := by
        rw [List.countP_eq_zero]
        intro e he
        exact (List.any_eq_false.mp h) e he
      rw [h0]
      simp [List.countP_cons, idEntry_hasId j now]
    refine ⟨?_, hcount⟩
    have hparams : ValidParams j.T j.I j.F
        (j.provenance_chain ++ [judgmentIdEntry j now]) := by
      refine ⟨hval.1, hval.2.1, hval.2.2.1, hval.2.2.2.1, hval.2.2.2.2.1,
        hval.2.2.2.2.2.1, hval.2.2.2.2.2.2.1, by simp, ?_⟩
      intro e he
      rw [List.mem_append] at he
      rcases he with he | he
      · exact hval.2.2.2.2.2.2.2.2 e he
      · rw [List.mem_singleton] at he
        subst he
        exact ⟨(by decide : ("otp-judgment-id-generator" : String) ≠ ""), hnow⟩
    simp only [ensureJudgmentId, h, Bool.false_eq_true, if_false]
    rw [construct_eq_bind, (validateJudgment_ok_iff _ _ _ _).mpr hparams]
    rfl
  refine ⟨part1, part2, ?_⟩
  intro j now now2 hval hnow h
  have h2 := part2 j now hval hnow h
  rw [h2.1]
  have hany : (j.provenance_chain ++ [judgmentIdEntry j now]).any
      entryHasJudgmentId = true := by
    rw [List.any_eq_true]
    exact ⟨judgmentIdEntry j now, List.mem_append_right _ (List.mem_singleton.mpr rfl),
      idEntry_hasId j now⟩
  have h1 := part1 ⟨j.T, j.I, j.F, j.provenance_chain ++ [judgmentIdEntry j now]⟩ now2 hany
  simp only [Except.bind, h1, Except.map]
  rw [h2.2]

theorem c8_witness :
    ((ensureJudgmentId exJudgment1 "t1").bind (fun a => ensureJudgmentId a "t2")).map
      (fun a => a.provenance_chain.countP entryHasJudgmentId) = .ok 1 :=
  c8_ensure_id_idempotent.2.2 exJudgment1 "t1" "t2" (by decide) (by decide) (by decide)

/-- C8 counterexample: a valid judgment whose chain already carries two
judgment_id entries passes through ensureId twice unchanged, leaving a
chain with two judgment_id entries, not exactly one. -/
theorem c8_counterexample :
    Valid twoIdJudgment ∧
    ((ensureJudgmentId twoIdJudgment "t2").bind (fun a => ensureJudgmentId a "t3")).map
      (fun a => a.provenance_chain.countP entryHasJudgmentId) = .ok 2 ∧
    (2 : ℕ) ≠ 1 := by
  refine ⟨by decide, by decide, by decide⟩

/-- C2: generating a seal over judgments, weights and an operator id,
attaching it as the conformance_seal of a trailing provenance entry
whose source_id is that operator id (the shape
createFusionProvenanceEntry produces), and then verifying the fused
judgment against the same inputs and weights always returns true. -/
theorem c2_seal_roundtrip (js : List NeutrosophicJudgment) (ws : List ℚ)
    (opId sl : String) (T I F : ℚ) (front : List ProvenanceEntry) (ts : String)
    (desc : Option String) (md : Option Metadata)
    (_hv : ∀ j ∈ js, Valid j) (hne : js ≠ []) (hlen : js.length = ws.length)
    (hop : opId ≠ "") (hgen : generateConformanceSeal js ws opId = .ok sl) :
    verifyConformanceSealWithInputs
      ⟨T, I, F, front ++ [createFusionProvenanceEntry opId ts sl desc md]⟩ js ws =
      .ok true := by
  have hslval : sha256hex (sealInputString js ws opId) = sl := by
    rw [generateConformanceSeal_ok js ws opId hne hlen hop] at hgen
    exact (Except.ok.injEq _ _).mp hgen
  have hslne : sl ≠ "" := by
    rw [← hslval]
    exact sha256hex_ne_empty _
  simp only [verifyConformanceSealWithInputs, createFusionProvenanceEntry,
    List.getLast?_concat]
  rw [if_neg hslne, hgen]
  simp

theorem c2_witness :
    verifyConformanceSealWithInputs
      ⟨37/50, 6/25, 1/50,
        [createFusionProvenanceEntry "otp-cawa-v1.1" "2023-01-01T00:00:02Z"
          (sha256hex (sealInputString [exJudgment1, exJudgment2] [3/5, 2/5]
            "otp-cawa-v1.1")) none none]⟩
      [exJudgment1, exJudgment2] [3/5, 2/5] = .ok true :=
  c2_seal_roundtrip [exJudgment1, exJudgment2] [3/5, 2/5] "otp-cawa-v1.1"
    (sha256hex (sealInputString [exJudgment1, exJudgment2] [3/5, 2/5] "otp-cawa-v1.1"))
    (37/50) (6/25) (1/50) [] "2023-01-01T00:00:02Z" none none
    (by decide) (by decide) (by decide) (by decide) rfl

/-- C1 (code-bug evidence): at the inputs of the repository's own
fusion-with-judgment-id tests, each fusion operator returns a judgment
whose provenance chain holds no entry with a truthy judgment_id: the
operators never call ensureJudgmentId, although the spec and the
judgment-id test suite require every fused judgment to carry one. -/
theorem c1_fusion_output_has_no_judgment_id :
    (conflict_aware_weighted_average [exJudgment1, exJudgment2] [3/5, 2/5]
      "2023-01-01T00:00:02Z").map
      (fun j => j.provenance_chain.any entryHasJudgmentId) = .ok false ∧
    (optimistic_fusion [exJudgment1, exJudgment2] "2023-01-01T00:00:02Z").map
      (fun j => j.provenance_chain.any entryHasJudgmentId) = .ok false ∧
    (pessimistic_fusion [exJudgment1, exJudgment2] "2023-01-01T00:00:02Z").map
      (fun j => j.provenance_chain.any entryHasJudgmentId) = .ok false := by
  refine ⟨by decide, by decide, by decide⟩

/-- C3 (amended): generateConformanceSeal is invariant under permuting
the judgment-weight pairs provided the source_ids of the judgments' last
provenance entries are pairwise distinct; when two judgments share that
source_id the stable tie-break keeps caller order and the seal can
depend on it (see the counterexample). -/
theorem c3_seal_permutation_invariance (js js' : List NeutrosophicJudgment)
    (ws ws' : List ℚ) (op : String) (_hv : ∀ j ∈ js, Valid j)
    (hlen : js.length = ws.length) (hlen' : js'.length = ws'.length)
    (hperm : (js.zip ws).Perm (js'.zip ws'))
    (hnd : (js.map lastSource).Nodup) :
    generateConformanceSeal js ws op = generateConformanceSeal js' ws' op :=
  seal_perm_invariant js js' ws ws' op hlen hlen' hperm hnd

theorem c3_witness :
    ([exJudgment1, exJudgment2].map lastSource).Nodup ∧
    generateConformanceSeal [exJudgment1, exJudgment2] [3/5, 2/5] "otp-cawa-v1.1" =
      generateConformanceSeal [exJudgment2, exJudgment1] [2/5, 3/5] "otp-cawa-v1.1" :=
  ⟨by decide, c3_seal_permutation_invariance [exJudgment1, exJudgment2]
    [exJudgment2, exJudgment1] [3/5, 2/5] [2/5, 3/5] "otp-cawa-v1.1" (by decide)
    (by decide) (by decide) (by decide) (by decide)⟩

set_option maxRecDepth 100000 in
/-- C3 counterexample: two valid judgments whose single provenance
entries share the source_id s, swapped together with their weights,
produce different seals: the stable sort keeps both orders as given, so
the serialized pair lists and hence the hashes differ. -/
theorem c3_counterexample :
    Valid dupJudgment1 ∧ Valid dupJudgment2 ∧
    (([dupJudgment1, dupJudgment2].zip [(1 : ℚ), 2]).Perm
      ([dupJudgment2, dupJudgment1].zip [(2 : ℚ), 1])) ∧
    generateConformanceSeal [dupJudgment1, dupJudgment2] [1, 2] "otp-cawa-v1.1" ≠
      generateConformanceSeal [dupJudgment2, dupJudgment1] [2, 1] "otp-cawa-v1.1" := by
  refine ⟨by decide, by decide, by decide, by decide⟩
